import Mathlib

/-!
# StatusBay registry (`watcher/kubernetes/registry.go`, `events.go`)

A shallow embedding of the registry row, its resource models, the
termination detector, the registry manager and the event stream, followed by
theorems about them.

Conventions of the embedding

* A Go `map[string]V` is an association list `GoMap V`; the first binding of a
  key is the live one.  Go iterates a map in an unspecified order, so a loop
  over a map is a recursion over the list, and every theorem below holds for
  every list, that is for every iteration order.
* `int32` values are integers; an `int32` addition is `add32`, which wraps
  modulo `2 ^ 32` into `[-2 ^ 31, 2 ^ 31)` as Go does.  `int64` and `int`
  values that are only compared or counted are `Int` and `Nat`.
* A function that mutates its receiver and returns an `error` returns the new
  state together with `Option String`, `none` being Go's `nil` error.
* `time.Now()` is an input: the predicates take `elapsed`, the value of
  `int64(diff)` in the source.
* The storage and the annotation helpers are external: their answers are
  parameters (`Storage`, `MetadataHelpers`).  A channel is the sequence of the
  records sent on it.
* The goroutines `save` starts run concurrently.  Each works on its own row;
  their storage calls and notifications are listed in the order of the map.
  They share the slice `deleteRows` and append to it without a lock, so an
  append can be lost: which appends survive is an input (`AppendSurvives`).
  The two mutexes of the manager are not modelled.
-/

namespace Statusbay

/-! ## Go primitives -/

/-- A Go `map[string]V`. -/
abbrev GoMap (V : Type) := List (String × V)

namespace GoMap

/-- The value `m[k]` and whether it was found. -/
def get {V : Type} : GoMap V → String → Option V
  | [], _ => none
  | (k', v) :: rest, k => if k' = k then some v else get rest k

/-- The assignment `m[k] = v`. -/
def set {V : Type} : GoMap V → String → V → GoMap V
  | [], k, v => [(k, v)]
  | (k', v') :: rest, k, v => if k' = k then (k, v) :: rest else (k', v') :: set rest k v

/-- The statement `delete(m, k)`. -/
def delete {V : Type} : GoMap V → String → GoMap V
  | [], _ => []
  | (k', v') :: rest, k => if k' = k then delete rest k else (k', v') :: delete rest k

end GoMap

/-- The value of an `int32` after an arithmetic result `x`: two's complement wrap-around. -/
def wrap32 (x : Int) : Int := (x + 2 ^ 31) % 2 ^ 32 - 2 ^ 31

/-- Go's `a + b` on `int32`. -/
def add32 (a b : Int) : Int := wrap32 (a + b)

/-- The values an `int32` can hold. -/
def isInt32 (x : Int) : Prop := -2 ^ 31 ≤ x ∧ x < 2 ^ 31

instance (x : Int) : Decidable (isInt32 x) := by unfold isInt32; infer_instance

/-! ## Data model -/

/-- Modelled from the spec: the type `EventMessages` is declared outside the given sources;
its four fields are the ones `events.go` fills in. -/
structure EventMessages where
  Message : String
  Time : Int
  Action : String
  ReportingController : String
deriving DecidableEq, Repr

/-- Modelled from the spec: the type `DeploymenPod` is declared outside the given sources;
`Phase` and `Events` are the two fields `registry.go` uses (both behind a pointer that
`NewPodToPods` allocates per entry). -/
structure DeploymenPod where
  Phase : String
  Events : List EventMessages
deriving DecidableEq, Repr

/-- The fields of `appsV1.ReplicaSetStatus` that are numbers. -/
structure ReplicaSetStatus where
  Replicas : Int
  FullyLabeledReplicas : Int
  ReadyReplicas : Int
  AvailableReplicas : Int
  ObservedGeneration : Int
deriving DecidableEq, Repr

/-- Modelled from the spec: the type `Replicaset` is declared outside the given sources. -/
structure Replicaset where
  Events : List EventMessages
  Status : ReplicaSetStatus
deriving DecidableEq, Repr

/-- Modelled from the spec: the type `MetaData` is declared outside the given sources. -/
structure MetaData where
  Name : String
  Namespace : String
  Labels : GoMap String
  DesiredState : Int
deriving DecidableEq, Repr

/-- The fields of `appsV1.DeploymentStatus` that are numbers. -/
structure K8sDeploymentStatus where
  ObservedGeneration : Int
  Replicas : Int
  UpdatedReplicas : Int
  ReadyReplicas : Int
  AvailableReplicas : Int
  UnavailableReplicas : Int
deriving DecidableEq, Repr

/-- The fields of `appsV1.DaemonSetStatus` that are numbers. -/
structure DaemonSetStatus where
  CurrentNumberScheduled : Int
  NumberMisscheduled : Int
  DesiredNumberScheduled : Int
  NumberReady : Int
  ObservedGeneration : Int
  UpdatedNumberScheduled : Int
  NumberAvailable : Int
  NumberUnavailable : Int
deriving DecidableEq, Repr

/-- Modelled from the spec: the type `DeploymentData` is declared outside the given sources. -/
structure DeploymentData where
  Deployment : MetaData
  Pods : GoMap DeploymenPod
  Replicaset : GoMap Replicaset
  DeploymentEvents : List EventMessages
  Status : K8sDeploymentStatus
  ProgressDeadlineSeconds : Int
deriving DecidableEq, Repr

/-- Modelled from the spec: the type `DaemonsetData` is declared outside the given sources. -/
structure DaemonsetData where
  Metadata : MetaData
  Pods : GoMap DeploymenPod
  DaemonsetEvents : List EventMessages
  Status : DaemonSetStatus
  ProgressDeadlineSeconds : Int
deriving DecidableEq, Repr

/-- Modelled from the spec: the string type `DeploymentStatus` and its constants are declared
outside the given sources; the spec lists the four values Running, Successful, Failed,
Deleted. -/
inductive DeploymentStatus where
  | DeploymentStatusRunning
  | DeploymentSuccessful
  | DeploymentStatusFailed
  | DeploymentStatusDeleted
deriving DecidableEq, Repr

/-- Modelled from the spec: the string type `DeploymentStatusDescription` and its constants
are declared outside the given sources; these are the three `registry.go` writes. -/
inductive DeploymentStatusDescription where
  | DeploymentStatusDescriptionRunning
  | DeploymentStatusDescriptionSuccessful
  | DeploymentStatusDescriptionProgressDeadline
deriving DecidableEq, Repr

open DeploymentStatus DeploymentStatusDescription

structure Resources where
  Deployments : GoMap DeploymentData
  Daemonsets : GoMap DaemonsetData
deriving DecidableEq, Repr

structure DBSchema where
  Application : String
  Cluster : String
  Namespace : String
  CreationTimestamp : Int
  ReportTo : List String
  DeployBy : String
  DeploymentDescription : DeploymentStatusDescription
  Resources : Resources
deriving DecidableEq, Repr

/-- The row of one deployment.  `cancelled` is the state of `ctx`: `cancelFn()` sets it. -/
structure RegistryRow where
  id : Nat
  finish : Bool
  status : DeploymentStatus
  cancelled : Bool
  collectDataAfterDeploymentFinish : Int
  DBSchema : DBSchema
deriving DecidableEq, Repr

/-! ## The completion predicates -/

/-- The error both predicates return. -/
def progressDeadlineError : String := "ProgrogressDeadline has passed"

/-- The accumulators of the loop of `isDeploymentFinish`. -/
structure DeploymentCounters where
  countOfRunningReplicas : Nat
  desiredStateCount : Int
  readyReplicasCount : Int
deriving DecidableEq, Repr

/-- The inner loop of `isDeploymentFinish`, over the replica-sets of one deployment. -/
def replicasetLoop : GoMap Replicaset → DeploymentCounters → DeploymentCounters
  | [], acc => acc
  | (_, replica) :: rest, acc =>
    let acc1 :=
      if replica.Status.Replicas > 0 then
        { acc with countOfRunningReplicas := acc.countOfRunningReplicas + 1 }
      else acc
    replicasetLoop rest
      { acc1 with readyReplicasCount := add32 acc1.readyReplicasCount replica.Status.ReadyReplicas }

/-- The outer loop of `isDeploymentFinish`; `none` is the early return with an error. -/
def deploymentLoop (elapsed : Int) :
    GoMap DeploymentData → DeploymentCounters → Option DeploymentCounters
  | [], acc => some acc
  | (_, deployment) :: rest, acc =>
    let acc1 :=
      { acc with desiredStateCount := add32 acc.desiredStateCount deployment.Deployment.DesiredState }
    let acc2 := replicasetLoop deployment.Replicaset acc1
    if deployment.ProgressDeadlineSeconds < elapsed then none
    else deploymentLoop elapsed rest acc2

/-- The method `RegistryRow.isDeploymentFinish`. -/
def isDeploymentFinish (wbr : RegistryRow) (elapsed : Int) : Bool × Option String :=
  let isFinished := false
  if wbr.DBSchema.Resources.Deployments.length = 0 then (true, none)
  else
    match deploymentLoop elapsed wbr.DBSchema.Resources.Deployments ⟨0, 0, 0⟩ with
    | none => (isFinished, some progressDeadlineError)
    | some acc =>
      let deploymentsNum := wbr.DBSchema.Resources.Deployments.length
      if (deploymentsNum = acc.countOfRunningReplicas
            ∧ acc.desiredStateCount = acc.readyReplicasCount)
          ∨ wbr.status = DeploymentStatusDeleted then (true, none)
      else (isFinished, none)

/-- The accumulators of the loop of `isDaemonSetFinish`. -/
structure DaemonsetCounters where
  totalDesiredPods : Int
  totalUpdatedPodsOnNodes : Int
  totalCurrentPods : Int
deriving DecidableEq, Repr

/-- The loop of `isDaemonSetFinish`; `none` is the early return with an error. -/
def daemonsetLoop (elapsed : Int) :
    GoMap DaemonsetData → DaemonsetCounters → Option DaemonsetCounters
  | [], acc => some acc
  | (_, daemonset) :: rest, acc =>
    let acc1 : DaemonsetCounters :=
      { totalDesiredPods := add32 acc.totalDesiredPods daemonset.Status.DesiredNumberScheduled
        totalUpdatedPodsOnNodes :=
          add32 acc.totalUpdatedPodsOnNodes daemonset.Status.DesiredNumberScheduled
        totalCurrentPods := add32 acc.totalCurrentPods daemonset.Status.CurrentNumberScheduled }
    if daemonset.ProgressDeadlineSeconds < elapsed then none
    else daemonsetLoop elapsed rest acc1

/-- The method `RegistryRow.isDaemonSetFinish`. -/
def isDaemonSetFinish (wbr : RegistryRow) (elapsed : Int) : Bool × Option String :=
  let isFinished := false
  if wbr.DBSchema.Resources.Daemonsets.length = 0 then (true, none)
  else
    match daemonsetLoop elapsed wbr.DBSchema.Resources.Daemonsets ⟨0, 0, 0⟩ with
    | none => (isFinished, some progressDeadlineError)
    | some acc =>
      if (acc.totalDesiredPods = acc.totalCurrentPods
            ∧ acc.totalDesiredPods = acc.totalUpdatedPodsOnNodes)
          ∨ wbr.status = DeploymentStatusDeleted then (true, none)
      else (isFinished, none)

/-! ## Totals in the words of the specification

These three follow the specification's formulas (unbounded sums), to be compared with
what the loops above compute. -/

/-- The number of replica-sets with `status.replicas > 0` of one deployment. -/
def runningReplicasetsOf (rs : GoMap Replicaset) : Nat :=
  (rs.filter fun r => decide (r.2.Status.Replicas > 0)).length

/-- The specification's `running_rs_count`. -/
def runningRsCount (ds : GoMap DeploymentData) : Nat :=
  (ds.map fun d => runningReplicasetsOf d.2.Replicaset).sum

/-- The specification's `desired`, the sum of `desired_state` over the deployments. -/
def desiredTotal (ds : GoMap DeploymentData) : Int :=
  (ds.map fun d => d.2.Deployment.DesiredState).sum

/-- The sum of `ready_replicas` over the replica-sets of one deployment. -/
def readyOf (rs : GoMap Replicaset) : Int :=
  (rs.map fun r => r.2.Status.ReadyReplicas).sum

/-- The specification's `ready`. -/
def readyTotal (ds : GoMap DeploymentData) : Int :=
  (ds.map fun d => readyOf d.2.Replicaset).sum

/-- The sum of `desired_number_scheduled` over the daemonsets. -/
def desiredScheduledTotal (ss : GoMap DaemonsetData) : Int :=
  (ss.map fun s => s.2.Status.DesiredNumberScheduled).sum

/-- The sum of `current_number_scheduled` over the daemonsets. -/
def currentScheduledTotal (ss : GoMap DaemonsetData) : Int :=
  (ss.map fun s => s.2.Status.CurrentNumberScheduled).sum

/-- The sum of `updated_number_scheduled` over the daemonsets. -/
def updatedScheduledTotal (ss : GoMap DaemonsetData) : Int :=
  (ss.map fun s => s.2.Status.UpdatedNumberScheduled).sum

/-- Some tracked deployment is past its progress deadline. -/
def deploymentDeadlinePassed (wbr : RegistryRow) (elapsed : Int) : Prop :=
  ∃ d ∈ wbr.DBSchema.Resources.Deployments, d.2.ProgressDeadlineSeconds < elapsed

/-- Some tracked daemonset is past its progress deadline. -/
def daemonsetDeadlinePassed (wbr : RegistryRow) (elapsed : Int) : Prop :=
  ∃ s ∈ wbr.DBSchema.Resources.Daemonsets, s.2.ProgressDeadlineSeconds < elapsed

instance (wbr : RegistryRow) (elapsed : Int) : Decidable (deploymentDeadlinePassed wbr elapsed) := by
  unfold deploymentDeadlinePassed; infer_instance

instance (wbr : RegistryRow) (elapsed : Int) : Decidable (daemonsetDeadlinePassed wbr elapsed) := by
  unfold daemonsetDeadlinePassed; infer_instance

/-! ## The termination detector -/

/-- The method `RegistryRow.Stop` (the sleep of `collectDataAfterDeploymentFinish` changes
no field). -/
def Stop (wbr : RegistryRow) (status : DeploymentStatus)
    (message : DeploymentStatusDescription) : RegistryRow :=
  let wbr1 := { wbr with DBSchema := { wbr.DBSchema with DeploymentDescription := message } }
  let wbr2 := { wbr1 with finish := true }
  { wbr2 with status := status }

/-- The call `wbr.cancelFn()`. -/
def cancelFn (wbr : RegistryRow) : RegistryRow := { wbr with cancelled := true }

/-- A run of the goroutine `isFinish`: the row, whether the goroutine has returned, and how
many times it has evaluated the pair of completion predicates. -/
structure Detector where
  row : RegistryRow
  returned : Bool
  evaluations : Nat
deriving DecidableEq, Repr

/-- The body of `case <-time.After(time.Second * 2)` in `isFinish`.  The two predicates read
the clock one after the other, hence the two elapsed times. -/
def isFinishTick (d : Detector) (elapsedDep elapsedDs : Int) : Detector :=
  let wbr := d.row
  if wbr.finish then { d with returned := true }
  else
    let (isDepFinished, depErr) := isDeploymentFinish wbr elapsedDep
    let (isDsFinished, dsErr) := isDaemonSetFinish wbr elapsedDs
    let evaluations := d.evaluations + 1
    if dsErr ≠ none ∨ depErr ≠ none then
      ⟨cancelFn (Stop wbr DeploymentStatusFailed DeploymentStatusDescriptionProgressDeadline),
        true, evaluations⟩
    else if isDepFinished ∧ isDsFinished then
      ⟨cancelFn (Stop wbr DeploymentSuccessful DeploymentStatusDescriptionSuccessful),
        false, evaluations⟩
    else ⟨wbr, false, evaluations⟩

/-- The `for { select { ... } }` of `isFinish`, for at most `fuel` iterations.  `clock n` gives
the elapsed times read in iteration `n`.  A cancelled context makes `ctx.Done()` the case that
is ready, and the goroutine returns. -/
def isFinishLoop (clock : Nat → Int × Int) : Nat → Nat → Detector → Detector
  | 0, _, d => d
  | fuel + 1, n, d =>
    if d.returned then d
    else if d.row.cancelled then { d with returned := true }
    else isFinishLoop clock fuel (n + 1) (isFinishTick d (clock n).1 (clock n).2)

/-- The method `RegistryRow.isFinish`, after its initial sleep. -/
def isFinish (clock : Nat → Int × Int) (fuel : Nat) (wbr : RegistryRow) : Detector :=
  if wbr.status = DeploymentStatusDeleted then
    ⟨cancelFn (Stop wbr DeploymentStatusDeleted DeploymentStatusDescriptionSuccessful), true, 0⟩
  else isFinishLoop clock fuel 0 ⟨wbr, false, 0⟩

/-! ## Pod maps -/

/-- The two parts of a `v1.Pod` the registry reads: `GetName()` and `Status.Phase`. -/
structure Pod where
  Name : String
  Phase : String
deriving DecidableEq, Repr

/-- The function `NewPodToPods`. -/
def NewPodToPods (pods : GoMap DeploymenPod) (pod : Pod) : GoMap DeploymenPod × Option String :=
  match pods.get pod.Name with
  | some _ => (pods, some "Pod already exists in pod list")
  | none =>
    let phase := pod.Phase
    (pods.set pod.Name { Phase := phase, Events := [] }, none)

/-- The loop of `UpdatePodEvents` over the saved events: whether it returns early. -/
def hasSavedEvent : List EventMessages → EventMessages → Bool
  | [], _ => false
  | saveEvent :: rest, event =>
    if saveEvent.Message = event.Message ∧ saveEvent.Time = event.Time then true
    else hasSavedEvent rest event

/-- The function `UpdatePodEvents`. -/
def UpdatePodEvents (pods : GoMap DeploymenPod) (podName : String) (event : EventMessages) :
    GoMap DeploymenPod × Option String :=
  match pods.get podName with
  | none => (pods, some "Pod not exists in pod list")
  | some p =>
    if hasSavedEvent p.Events event then (pods, none)
    else (pods.set podName { p with Events := p.Events ++ [event] }, none)

/-- The function `UpdatePodStatus`. -/
def UpdatePodStatus (pods : GoMap DeploymenPod) (pod : Pod) (status : String) :
    GoMap DeploymenPod × Option String :=
  match pods.get pod.Name with
  | none => (pods, some "Pod not exists in pod list")
  | some p => (pods.set pod.Name { p with Phase := status }, none)

/-- One call on a pod map. -/
inductive PodCall where
  | newPod (pod : Pod)
  | updateEvents (podName : String) (event : EventMessages)
  | updateStatus (pod : Pod) (status : String)
deriving DecidableEq, Repr

/-- The pod map after one call (the error, if any, is dropped). -/
def PodCall.run (pods : GoMap DeploymenPod) : PodCall → GoMap DeploymenPod
  | .newPod pod => (NewPodToPods pods pod).1
  | .updateEvents podName event => (UpdatePodEvents pods podName event).1
  | .updateStatus pod status => (UpdatePodStatus pods pod status).1

/-- The pod map reached from the empty map by a sequence of calls. -/
def podsAfter (calls : List PodCall) : GoMap DeploymenPod :=
  calls.foldl PodCall.run []

/-- Two events with the same `(Message, Time)` pair. -/
def sameMessageTime (a b : EventMessages) : Prop := a.Message = b.Message ∧ a.Time = b.Time

instance (a b : EventMessages) : Decidable (sameMessageTime a b) := by
  unfold sameMessageTime; infer_instance

/-- No two events of the sequence share `(Message, Time)`. -/
def deduplicated (events : List EventMessages) : Prop :=
  events.Pairwise fun a b => ¬ sameMessageTime a b

/-- How many events of the sequence have the `(Message, Time)` of `event`. -/
def occurrences (events : List EventMessages) (event : EventMessages) : Nat :=
  events.countP fun e => decide (sameMessageTime e event)

/-! ## Example rows -/

/-- A replica-set entry with the given `replicas` and `ready_replicas`. -/
def mkReplicaset (replicas ready : Int) : Replicaset :=
  { Events := [], Status := ⟨replicas, 0, ready, 0, 0⟩ }

/-- A deployment with the given desired state, deadline and replica-sets. -/
def mkDeployment (name : String) (desired deadline : Int) (rs : GoMap Replicaset) :
    DeploymentData :=
  { Deployment := ⟨name, "default", [], desired⟩, Pods := [], Replicaset := rs,
    DeploymentEvents := [], Status := ⟨0, 0, 0, 0, 0, 0⟩, ProgressDeadlineSeconds := deadline }

/-- A daemonset with the given desired, current and updated counts and deadline. -/
def mkDaemonset (name : String) (desired current updated deadline : Int) : DaemonsetData :=
  { Metadata := ⟨name, "default", [], 0⟩, Pods := [], DaemonsetEvents := [],
    Status := ⟨current, 0, desired, 0, 0, updated, 0, 0⟩, ProgressDeadlineSeconds := deadline }

/-- A running, unfinished row of application `web` with the given resources. -/
def mkRow (status : DeploymentStatus) (deps : GoMap DeploymentData)
    (dss : GoMap DaemonsetData) : RegistryRow :=
  { id := 0, finish := false, status := status, cancelled := false,
    collectDataAfterDeploymentFinish := 0,
    DBSchema := ⟨"web", "c1", "default", 1000, [], "", DeploymentStatusDescriptionRunning,
      ⟨deps, dss⟩⟩ }

/-- Scenario 1 of the specification: one deployment wanting 3, one replica-set with 3 of 3. -/
def happyRow : RegistryRow :=
  mkRow DeploymentStatusRunning [("web", mkDeployment "web" 3 600 [("rs-1", mkReplicaset 3 3)])] []

/-- Three deployments wanting `2147483647`, `2147483647` and `2` replicas, each with one
replica-set that has one replica and none ready. -/
def overflowRow : RegistryRow :=
  mkRow DeploymentStatusRunning
    [("a", mkDeployment "a" 2147483647 600 [("rs-a", mkReplicaset 1 0)]),
     ("b", mkDeployment "b" 2147483647 600 [("rs-b", mkReplicaset 1 0)]),
     ("c", mkDeployment "c" 2 600 [("rs-c", mkReplicaset 1 0)])] []

/-- The row with every daemonset's `UpdatedNumberScheduled` overwritten by 0: two rows differ
only in those values exactly when this gives the same row for both. -/
def eraseUpdated (wbr : RegistryRow) : RegistryRow :=
  { wbr with
    DBSchema := { wbr.DBSchema with
      Resources := { wbr.DBSchema.Resources with
        Daemonsets := wbr.DBSchema.Resources.Daemonsets.map fun s =>
          (s.1, { s.2 with Status := { s.2.Status with UpdatedNumberScheduled := 0 } }) } } }

/-- One daemonset wanting 3 pods, 3 scheduled, none of them updated. -/
def staleDaemonsetRow : RegistryRow :=
  mkRow DeploymentStatusRunning [] [("ds", mkDaemonset "ds" 3 3 0 600)]

/-- Three daemonsets wanting `2147483647`, `2147483647` and `2` pods, none scheduled. -/
def overflowDaemonsetRow : RegistryRow :=
  mkRow DeploymentStatusRunning []
    [("a", mkDaemonset "a" 2147483647 0 0 600), ("b", mkDaemonset "b" 2147483647 0 0 600),
     ("c", mkDaemonset "c" 2 0 0 600)]

/-- One daemonset wanting 2 pods with 2 scheduled and 2 updated. -/
def happyDaemonsetRow : RegistryRow :=
  mkRow DeploymentStatusRunning [] [("ds", mkDaemonset "ds" 2 2 2 600)]

/-- Scenario 2 of the specification: the deployment of scenario 1 with a deadline of 1 s. -/
def lateRow : RegistryRow :=
  mkRow DeploymentStatusRunning [("web", mkDeployment "web" 3 1 [("rs-1", mkReplicaset 3 3)])] []

/-- The deployment of scenario 1 before any replica is ready. -/
def pendingRow : RegistryRow :=
  mkRow DeploymentStatusRunning [("web", mkDeployment "web" 3 600 [("rs-1", mkReplicaset 3 0)])] []

/-- Scenario 3 of the specification: a Deleted row, here with a deployment whose deadline of
1 s is long past and whose replicas are not ready. -/
def deletedRow : RegistryRow :=
  mkRow DeploymentStatusDeleted [("web", mkDeployment "web" 3 1 [("rs-1", mkReplicaset 3 0)])]
    [("ds", mkDaemonset "ds" 2 0 0 1)]

/-- The replica-set entry `u` under-reports `f`: same name and events, `status.replicas` and
`status.ready_replicas` at most those of `f`, the rest of the status equal. -/
def replicasetUnderReports (u f : String × Replicaset) : Prop :=
  u.1 = f.1 ∧ u.2.Events = f.2.Events
    ∧ u.2.Status.Replicas ≤ f.2.Status.Replicas
    ∧ u.2.Status.ReadyReplicas ≤ f.2.Status.ReadyReplicas
    ∧ u.2.Status.FullyLabeledReplicas = f.2.Status.FullyLabeledReplicas
    ∧ u.2.Status.AvailableReplicas = f.2.Status.AvailableReplicas
    ∧ u.2.Status.ObservedGeneration = f.2.Status.ObservedGeneration

instance (u f : String × Replicaset) : Decidable (replicasetUnderReports u f) := by
  unfold replicasetUnderReports; infer_instance

/-- The deployment entry `u` under-reports `f`: identical but for the replica-sets, which
under-report those of `f` one by one. -/
def deploymentUnderReports (u f : String × DeploymentData) : Prop :=
  u.1 = f.1 ∧ u.2.Deployment = f.2.Deployment ∧ u.2.Pods = f.2.Pods
    ∧ u.2.DeploymentEvents = f.2.DeploymentEvents ∧ u.2.Status = f.2.Status
    ∧ u.2.ProgressDeadlineSeconds = f.2.ProgressDeadlineSeconds
    ∧ List.Forall₂ replicasetUnderReports u.2.Replicaset f.2.Replicaset

instance (u f : String × DeploymentData) : Decidable (deploymentUnderReports u f) := by
  unfold deploymentUnderReports; infer_instance

/-- The row `u` is the row `f` with replica-set statuses under-reported: the two rows are
identical except that each replica-set's `status.replicas` and `status.ready_replicas` in `u`
are less than or equal to the values in `f`. -/
def underReports (u f : RegistryRow) : Prop :=
  u.id = f.id ∧ u.finish = f.finish ∧ u.status = f.status ∧ u.cancelled = f.cancelled
    ∧ u.collectDataAfterDeploymentFinish = f.collectDataAfterDeploymentFinish
    ∧ { u.DBSchema with Resources := f.DBSchema.Resources } = f.DBSchema
    ∧ u.DBSchema.Resources.Daemonsets = f.DBSchema.Resources.Daemonsets
    ∧ List.Forall₂ deploymentUnderReports
        u.DBSchema.Resources.Deployments f.DBSchema.Resources.Deployments

instance (u f : RegistryRow) : Decidable (underReports u f) := by
  unfold underReports; infer_instance

/-- A rolling update as it is: the old replica-set still has one replica, the new one has all
three replicas ready. -/
def rollingRow : RegistryRow :=
  mkRow DeploymentStatusRunning
    [("web", mkDeployment "web" 3 600
      [("rs-old", mkReplicaset 1 0), ("rs-new", mkReplicaset 3 3)])] []

/-- The same rolling update with the old replica-set's replica not yet reported. -/
def rollingRowUnderReported : RegistryRow :=
  mkRow DeploymentStatusRunning
    [("web", mkDeployment "web" 3 600
      [("rs-old", mkReplicaset 0 0), ("rs-new", mkReplicaset 3 3)])] []

/-- Scenario 1 with only two of the three ready replicas reported. -/
def happyRowUnderReported : RegistryRow :=
  mkRow DeploymentStatusRunning [("web", mkDeployment "web" 3 600 [("rs-1", mkReplicaset 3 2)])] []

/-- The event of scenario 5: message `X` at time 100. -/
def eventX : EventMessages := ⟨"X", 100, "", ""⟩

/-- A pod map with one pod `p` and no events. -/
def onePod : GoMap DeploymenPod := [("p", ⟨"Pending", []⟩)]

/-- A pod map whose pod `p` already holds the event of scenario 5 twice. -/
def twicePod : GoMap DeploymenPod := [("p", ⟨"Pending", [eventX, eventX]⟩)]

/-- Scenario 5 of the specification: a pod is added and the same event is appended twice. -/
def scenario5 : List PodCall :=
  [.newPod ⟨"p", "Pending"⟩, .updateEvents "p" eventX, .updateEvents "p" eventX]

/-! ## The reporter and the storage -/

/-- Modelled from the spec: the type `DeploymentReporter` is declared outside the given
sources; a notification carries `{to[], deploy_by, name, uri, status}`. -/
structure DeploymentReporter where
  To : List String
  DeployBy : String
  Name : String
  URI : String
  Status : DeploymentStatus
deriving DecidableEq, Repr

/-- Modelled from the spec: the type `ReporterManager` is declared outside the given sources.
Each channel is the sequence of records sent on it, oldest first; these are the three
channels `registry.go` sends on. -/
structure ReporterManager where
  DeploymentStarted : List DeploymentReporter
  DeploymentDeleted : List DeploymentReporter
  DeploymentFinished : List DeploymentReporter
deriving DecidableEq, Repr

/-- Modelled from the spec: the interface `Storage` is declared outside the given sources and
implemented by an external collaborator, so its two persistence methods are parameters:
`CreateApply(row, status) → (id, error)` and `UpdateApply(id, row, status) → error`. -/
structure Storage where
  CreateApply : RegistryRow → DeploymentStatus → Nat × Option String
  UpdateApply : Nat → RegistryRow → DeploymentStatus → Option String

/-- A call the registry makes on the storage, with its arguments. -/
inductive StorageCall where
  | CreateApply (row : RegistryRow) (status : DeploymentStatus)
  | UpdateApply (id : Nat) (row : RegistryRow) (status : DeploymentStatus)
deriving DecidableEq, Repr

/-- The registry manager.  `storageCalls` records, oldest first, the calls made on `storage`;
the durations are in nanoseconds; the two mutexes are not modelled. -/
structure RegistryManager where
  registryData : GoMap RegistryRow
  saveInterval : Int
  saveDeploymentHistoryDuration : Int
  checkFinishDelay : Int
  collectDataAfterDeploymentFinish : Int
  storage : Storage
  storageCalls : List StorageCall
  reporter : ReporterManager

/-- The keys of a Go map are pairwise distinct. -/
def GoMap.wellFormed {V : Type} (m : GoMap V) : Prop := (m.map Prod.fst).Nodup

instance {V : Type} (m : GoMap V) : Decidable m.wellFormed := by
  unfold GoMap.wellFormed; infer_instance

/-! ## Identity -/

/-- The alphabet of `base64.StdEncoding`. -/
def base64Alphabet : List Char :=
  "ABCDEFGHIJKLMNOPQRSTUVWXYZabcdefghijklmnopqrstuvwxyz0123456789+/".toList

/-- The character of a 6-bit value. -/
def base64Char (n : Nat) : Char := base64Alphabet.getD n '='

/-- The function `base64.StdEncoding.EncodeToString` on a sequence of bytes: three bytes give
four characters, the last group is padded with `=`. -/
def base64Encode : List Nat → List Char
  | [] => []
  | [b0] => [base64Char (b0 / 4), base64Char (b0 % 4 * 16), '=', '=']
  | [b0, b1] =>
    [base64Char (b0 / 4), base64Char (b0 % 4 * 16 + b1 / 16), base64Char (b1 % 16 * 4), '=']
  | b0 :: b1 :: b2 :: rest =>
    base64Char (b0 / 4) :: base64Char (b0 % 4 * 16 + b1 / 16)
      :: base64Char (b1 % 16 * 4 + b2 / 64) :: base64Char (b2 % 64) :: base64Encode rest

/-- The conversion `[]byte(s)`: the UTF-8 bytes of a string. -/
def utf8Bytes (s : String) : List Nat :=
  s.toList.flatMap fun c => (String.utf8EncodeChar c).map UInt8.toNat

/-- The function `generateID`. -/
def generateID (name ns : String) : String :=
  String.mk (base64Encode (utf8Bytes (name ++ "-" ++ ns)))

/-- The method `RegistryRow.GetURI`. -/
def GetURI (wbr : RegistryRow) : String :=
  "deployments/" ++ wbr.DBSchema.Application ++ "/" ++ toString wbr.DBSchema.CreationTimestamp

/-! ## The manager's operations -/

/-- The package-level helpers and constant `NewApplication` uses, declared outside the given
sources: they are parameters. -/
structure MetadataHelpers where
  METAPREFIX : String
  GetMetadataByPrefix : GoMap String → String → List String
  GetMetadata : GoMap String → String → String

/-- The arguments of one call of `NewApplication`, with the second `time.Now().Unix()` reads. -/
structure NewApplicationCall where
  appName : String
  resourceName : String
  ns : String
  clusterName : String
  annotations : GoMap String
  status : DeploymentStatus
  now : Int

/-- The method `RegistryManager.NewApplication`: the manager afterwards and the row returned.
The row in the map and the row returned are one object; the detector goroutine it starts is
`isFinish`. -/
def NewApplication (md : MetadataHelpers) (dr : RegistryManager) (c : NewApplicationCall) :
    RegistryManager × RegistryRow :=
  let encodedID := generateID c.appName c.ns
  let reportTo := md.GetMetadataByPrefix c.annotations (md.METAPREFIX ++ "/" ++ "report-")
  let deployBy := md.GetMetadata c.annotations (md.METAPREFIX ++ "/" ++ "report-deploy-by")
  let deployTime := c.now
  let row : RegistryRow :=
    { id := 0, cancelled := false, finish := false, status := c.status,
      collectDataAfterDeploymentFinish := dr.collectDataAfterDeploymentFinish,
      DBSchema :=
        { Application := c.appName, Cluster := c.clusterName, Namespace := c.ns,
          CreationTimestamp := deployTime, ReportTo := reportTo, DeployBy := deployBy,
          DeploymentDescription := DeploymentStatusDescriptionRunning,
          Resources := { Deployments := [], Daemonsets := [] } } }
  let dr1 := { dr with registryData := dr.registryData.set encodedID row }
  let message : DeploymentReporter :=
    { To := reportTo, DeployBy := deployBy, Name := c.appName, URI := GetURI row,
      Status := c.status }
  let dr2 :=
    match c.status with
    | DeploymentStatusRunning =>
      { dr1 with reporter := { dr1.reporter with
          DeploymentStarted := dr1.reporter.DeploymentStarted ++ [message] } }
    | DeploymentStatusDeleted =>
      { dr1 with reporter := { dr1.reporter with
          DeploymentDeleted := dr1.reporter.DeploymentDeleted ++ [message] } }
    | _ => dr1
  (dr2, row)

/-- The manager after a sequence of `NewApplication` calls. -/
def newApplications (md : MetadataHelpers) (dr : RegistryManager) (calls : List NewApplicationCall) :
    RegistryManager :=
  calls.foldl (fun d c => (NewApplication md d c).1) dr

/-- The method `RegistryManager.Get`; `none` is Go's `nil`. -/
def Get (dr : RegistryManager) (name ns : String) : Option RegistryRow :=
  let encodedID := generateID name ns
  match dr.registryData.get encodedID with
  | some row => some row
  | none => none

/-! ## The save cycle -/

/-- What the goroutines of one `save` share: the keys queued for deletion, the calls made on
the storage and the reporter. -/
structure SaveState where
  deleteRows : List String
  storageCalls : List StorageCall
  reporter : ReporterManager
deriving DecidableEq, Repr

/-- The outcome of the race on `deleteRows`.  The goroutines of `save` run concurrently and
each does `*deleteRows = append(*deleteRows, key)` on the shared slice without a lock, so the
append of one goroutine can be overwritten by that of another.  `survives key` tells whether
the append of `key` is still in the slice when the goroutines are joined by `wg.Wait()`.
(An append can only be lost to another one, so not every function is the outcome of a real
run: a statement for every `survives` covers every real run and more.) -/
abbrev AppendSurvives := String → Bool

/-- The statement `*deleteRows = append(*deleteRows, key)` of a goroutine of `save`, under
the race on `deleteRows`. -/
def appendDeleteRow (survives : AppendSurvives) (deleteRows : List String) (key : String) :
    List String :=
  if survives key then deleteRows ++ [key] else deleteRows

/-- The second half of the goroutine of `save`, from the `if data.finish` on. -/
def saveFinish (survives : AppendSurvives) (key : String) (data : RegistryRow)
    (st : SaveState) : RegistryRow × SaveState :=
  if data.finish then
    let st1 :=
      if data.status ≠ DeploymentStatusDeleted then
        { st with reporter := { st.reporter with
            DeploymentFinished := st.reporter.DeploymentFinished ++
              [{ To := data.DBSchema.ReportTo, DeployBy := data.DBSchema.DeployBy,
                 Name := data.DBSchema.Application, URI := GetURI data,
                 Status := data.status }] } }
      else st
    (data, { st1 with deleteRows := appendDeleteRow survives st1.deleteRows key })
  else (data, st)

/-- The goroutine `save` starts for one entry of the map: the row and the shared state
afterwards. -/
def saveRow (storage : Storage) (survives : AppendSurvives) (key : String)
    (data : RegistryRow) (st : SaveState) : RegistryRow × SaveState :=
  if data.id = 0 then
    let id := (storage.CreateApply data data.status).1
    let err := (storage.CreateApply data data.status).2
    let st1 := { st with storageCalls := st.storageCalls ++ [.CreateApply data data.status] }
    if err ≠ none then
      (data, { st1 with deleteRows := appendDeleteRow survives st1.deleteRows key })
    else saveFinish survives key { data with id := id } st1
  else
    let _ := storage.UpdateApply data.id data data.status
    let st1 :=
      { st with storageCalls := st.storageCalls ++ [.UpdateApply data.id data data.status] }
    saveFinish survives key data st1

/-- The loop of `save` over the map and the goroutines it starts, up to `wg.Wait()`.  The
rows, the storage calls and the notifications are listed in the order of the map; what
`deleteRows` holds at the end depends on the race through `survives`. -/
def saveLoop (storage : Storage) (survives : AppendSurvives) :
    GoMap RegistryRow → SaveState → GoMap RegistryRow × SaveState
  | [], st => ([], st)
  | (key, data) :: rest, st =>
    let (data1, st1) := saveRow storage survives key data st
    let (rest1, st2) := saveLoop storage survives rest st1
    ((key, data1) :: rest1, st2)

/-- The last loop of `save`: `delete(dr.registryData, key)` for every key in `deleteRows`. -/
def deleteLoop : List String → GoMap RegistryRow → GoMap RegistryRow
  | [], m => m
  | key :: keys, m => deleteLoop keys (m.delete key)

/-- The method `RegistryManager.save`, for a given outcome of the race on `deleteRows`. -/
def save (dr : RegistryManager) (survives : AppendSurvives) : RegistryManager :=
  let (rows, st) :=
    saveLoop dr.storage survives dr.registryData ⟨[], dr.storageCalls, dr.reporter⟩
  { dr with
    registryData := deleteLoop st.deleteRows rows
    storageCalls := st.storageCalls
    reporter := st.reporter }

/-- The first creation of the row fails: it has `id = 0` and `CreateApply` returns an error. -/
def createFails (storage : Storage) (data : RegistryRow) : Prop :=
  data.id = 0 ∧ (storage.CreateApply data data.status).2 ≠ none

instance (storage : Storage) (data : RegistryRow) : Decidable (createFails storage data) := by
  unfold createFails; infer_instance

/-! ## The replica-sets of a deployment -/

/-- The method `DeploymentData.InitReplicaset`. -/
def InitReplicaset (dd : DeploymentData) (name : String) : DeploymentData :=
  match dd.Replicaset.get name with
  | some _ => dd
  | none =>
    { dd with Replicaset := dd.Replicaset.set name { Events := [], Status := ⟨0, 0, 0, 0, 0⟩ } }

/-- The method `DeploymentData.UpdateReplicasetEvents`. -/
def UpdateReplicasetEvents (dd : DeploymentData) (name : String) (event : EventMessages) :
    DeploymentData × Option String :=
  match dd.Replicaset.get name with
  | none => (dd, some "Replicaset not found")
  | some rs =>
    ({ dd with Replicaset := dd.Replicaset.set name { rs with Events := rs.Events ++ [event] } },
      none)

/-- The method `DeploymentData.UpdateReplicasetStatus`. -/
def UpdateReplicasetStatus (dd : DeploymentData) (name : String) (status : ReplicaSetStatus) :
    DeploymentData × Option String :=
  match dd.Replicaset.get name with
  | none => (dd, some "Replicaset not found")
  | some rs => ({ dd with Replicaset := dd.Replicaset.set name { rs with Status := status } }, none)

/-! ## The save cycle, row by row

What one goroutine of `save` does to its row and to the shared state, stated separately so
that the loop can be compared with it. -/

/-- The row after its goroutine: the identifier returned by a successful first
`CreateApply` is stored, nothing else changes. -/
def savedRow (storage : Storage) (data : RegistryRow) : RegistryRow :=
  if data.id = 0 ∧ (storage.CreateApply data data.status).2 = none then
    { data with id := (storage.CreateApply data data.status).1 }
  else data

/-- The goroutine appends the key of the row to `deleteRows`. -/
def queuesDeletion (storage : Storage) (data : RegistryRow) : Prop :=
  createFails storage data ∨ data.finish = true

instance (storage : Storage) (data : RegistryRow) : Decidable (queuesDeletion storage data) := by
  unfold queuesDeletion; infer_instance

/-- The key of the row is in `deleteRows` when the goroutines are joined: its goroutine
appended it and the append survived the race. -/
def deletesKey (storage : Storage) (survives : AppendSurvives) (key : String)
    (data : RegistryRow) : Prop :=
  queuesDeletion storage data ∧ survives key = true

instance (storage : Storage) (survives : AppendSurvives) (key : String) (data : RegistryRow) :
    Decidable (deletesKey storage survives key data) := by
  unfold deletesKey; infer_instance

/-- The storage call the goroutine makes for the row. -/
def storageCallOf (data : RegistryRow) : StorageCall :=
  if data.id = 0 then .CreateApply data data.status
  else .UpdateApply data.id data data.status

/-- The `DeploymentFinished` notification of a row. -/
def finishedNotification (data : RegistryRow) : DeploymentReporter :=
  { To := data.DBSchema.ReportTo, DeployBy := data.DBSchema.DeployBy,
    Name := data.DBSchema.Application, URI := GetURI data, Status := data.status }

/-- The `DeploymentFinished` notifications the goroutine sends for the row. -/
def finishedNotifications (storage : Storage) (data : RegistryRow) : List DeploymentReporter :=
  if data.finish = true ∧ data.status ≠ DeploymentStatusDeleted ∧ ¬ createFails storage data then
    [finishedNotification data]
  else []

/-! ## Example managers -/

/-- A storage whose `CreateApply` fails for the application `bad` and gives the identifier 7
otherwise, and whose `UpdateApply` always fails. -/
def pickyStorage : Storage :=
  { CreateApply := fun row _ =>
      if row.DBSchema.Application = "bad" then (0, some "create failed") else (7, none)
    UpdateApply := fun _ _ _ => some "update failed" }

/-- A manager with the given rows, `pickyStorage` and nothing sent or stored yet. -/
def mkManager (rows : GoMap RegistryRow) : RegistryManager :=
  { registryData := rows, saveInterval := 0, saveDeploymentHistoryDuration := 0,
    checkFinishDelay := 0, collectDataAfterDeploymentFinish := 0, storage := pickyStorage,
    storageCalls := [], reporter := ⟨[], [], []⟩ }

/-- The row of scenario 1 under the application name `bad`, which `pickyStorage` refuses. -/
def badRow : RegistryRow :=
  { happyRow with DBSchema := { happyRow.DBSchema with Application := "bad" } }

/-- The row `badRow` after the detector has declared it Successful. -/
def badRowFinished : RegistryRow :=
  Stop badRow DeploymentSuccessful DeploymentStatusDescriptionSuccessful

/-- The row of scenario 1 after the detector has declared it Successful. -/
def happyRowFinished : RegistryRow :=
  Stop happyRow DeploymentSuccessful DeploymentStatusDescriptionSuccessful

/-- The row of scenario 1 once stored under the identifier 7. -/
def happyRowStored : RegistryRow := { happyRow with id := 7 }

/-- A registry with a new row that the storage accepts, a new row that it refuses and a
finished row. -/
def mixedManager : RegistryManager :=
  mkManager [("k-web", happyRow), ("k-bad", badRow), ("k-done", happyRowFinished)]

/-- The outcome of the race in which every append on `deleteRows` survives. -/
def allSurvive : AppendSurvives := fun _ => true

/-- The outcome of the race in which the append of `key` is overwritten by a concurrent one
and every other append survives. -/
def lostAppend (key : String) : AppendSurvives := fun k => k != key

/-- Helpers that find no `report-` annotation. -/
def noMetadata : MetadataHelpers :=
  { METAPREFIX := "statusbay.io", GetMetadataByPrefix := fun _ _ => [],
    GetMetadata := fun _ _ => "" }

/-- A manager with no rows. -/
def emptyManager : RegistryManager := mkManager []

/-- The application `web-api` is applied in the namespace `prod`. -/
def callWebApiProd : NewApplicationCall :=
  { appName := "web-api", resourceName := "web-api", ns := "prod", clusterName := "c1",
    annotations := [], status := DeploymentStatusRunning, now := 1000 }

/-- The application `web` is applied in the namespace `api-prod`. -/
def callWebApiProd2 : NewApplicationCall :=
  { appName := "web", resourceName := "web", ns := "api-prod", clusterName := "c1",
    annotations := [], status := DeploymentStatusRunning, now := 1001 }

/-- The statuses a terminal transition of the detector may leave. -/
def terminalStatus (s : DeploymentStatus) : Prop :=
  s = DeploymentSuccessful ∨ s = DeploymentStatusFailed ∨ s = DeploymentStatusDeleted

instance (s : DeploymentStatus) : Decidable (terminalStatus s) := by
  unfold terminalStatus; infer_instance

/-- A deployment with the replica-set `rs-1` holding one event. -/
def oneReplicasetDeployment : DeploymentData :=
  mkDeployment "web" 3 600 [("rs-1", { Events := [eventX], Status := ⟨3, 0, 2, 0, 0⟩ })]

/-- A registry holding the row of scenario 1, already stored under the identifier 7. -/
def storedManager : RegistryManager := mkManager [("k-web", happyRowStored)]

/-- Two deployments: `a` wants 3 and has 2 ready, `b` wants 1 and has 2 ready. -/
def surplusRow : RegistryRow :=
  mkRow DeploymentStatusRunning
    [("a", mkDeployment "a" 3 600 [("rs-a", mkReplicaset 3 2)]),
     ("b", mkDeployment "b" 1 600 [("rs-b", mkReplicaset 2 2)])] []

/-- Two deployments: `a` wants 2 and owns no replica-set, `b` wants 1 and owns two active
replica-sets with 1 and 2 ready replicas. -/
def twoActiveRow : RegistryRow :=
  mkRow DeploymentStatusRunning
    [("a", mkDeployment "a" 2 600 []),
     ("b", mkDeployment "b" 1 600 [("rs-old", mkReplicaset 1 1), ("rs-new", mkReplicaset 2 2)])]
    []

/-! ## Recovery from the storage -/

/-- The loop of `LoadRunningApplies` over the applies the storage returned: each row is built
from the id and the snapshot (the struct literal leaves `collectDataAfterDeploymentFinish` at
its zero value), registered under the encoded identity and appended to the result. -/
def loadRunningLoop :
    List (Nat × DBSchema) → RegistryManager → List RegistryRow → RegistryManager × List RegistryRow
  | [], dr, rows => (dr, rows)
  | (id, appSchema) :: rest, dr, rows =>
    let encodedID := generateID appSchema.Application appSchema.Namespace
    let row : RegistryRow :=
      { id := id, cancelled := false, finish := false, status := DeploymentStatusRunning,
        collectDataAfterDeploymentFinish := 0, DBSchema := appSchema }
    loadRunningLoop rest { dr with registryData := dr.registryData.set encodedID row }
      (rows ++ [row])

/-- The method `RegistryManager.LoadRunningApplies`; `apps` is what
`dr.storage.GetAppliesByStatus(DeploymentStatusRunning)` returned. -/
def LoadRunningApplies (dr : RegistryManager) (apps : List (Nat × DBSchema)) :
    RegistryManager × List RegistryRow :=
  loadRunningLoop apps dr []

/-- The record a storage keeps under an id: the snapshot and the status. -/
abbrev StoredApply := Nat × DBSchema × DeploymentStatus

/-- Modelled from the spec: the storage implementation is outside the given sources.  Writing
a record under an id replaces the record of that id or adds one. -/
def putApply (id : Nat) (schema : DBSchema) (status : DeploymentStatus) :
    List StoredApply → List StoredApply
  | [] => [(id, schema, status)]
  | (id2, v) :: rest =>
    if id2 = id then (id, schema, status) :: rest else (id2, v) :: putApply id schema status rest

/-- Modelled from the spec: the storage implementation is outside the given sources.  The
records of a storage that keeps, under the id concerned, the snapshot and status of every
`CreateApply` and `UpdateApply` call that returned no error, the calls taken oldest first. -/
def storedApplies (storage : Storage) : List StorageCall → List StoredApply → List StoredApply
  | [], acc => acc
  | .CreateApply row status :: rest, acc =>
    if (storage.CreateApply row status).2 = none then
      storedApplies storage rest
        (putApply (storage.CreateApply row status).1 row.DBSchema status acc)
    else storedApplies storage rest acc
  | .UpdateApply id row status :: rest, acc =>
    if storage.UpdateApply id row status = none then
      storedApplies storage rest (putApply id row.DBSchema status acc)
    else storedApplies storage rest acc

/-- Modelled from the spec: the storage implementation is outside the given sources.  The
recovery query `GetAppliesByStatus(status) → mapping id→snapshot` after the given calls. -/
def GetAppliesByStatus (storage : Storage) (calls : List StorageCall)
    (status : DeploymentStatus) : List (Nat × DBSchema) :=
  ((storedApplies storage calls []).filter fun e => decide (e.2.2 = status)).map
    fun e => (e.1, e.2.1)

/-- A manager with no rows and a collect window of five seconds. -/
def collectingManager : RegistryManager :=
  { emptyManager with collectDataAfterDeploymentFinish := 5000000000 }

/-- The application `web` is applied in the namespace `default`. -/
def callWebDefault : NewApplicationCall :=
  { appName := "web", resourceName := "web", ns := "default", clusterName := "c1",
    annotations := [], status := DeploymentStatusRunning, now := 1000 }

/-- The row `NewApplication` returns for `callWebDefault` on `collectingManager`. -/
def webCreated : RegistryRow := (NewApplication noMetadata collectingManager callWebDefault).2

/-- The manager after that call and one save cycle. -/
def webSaved : RegistryManager :=
  save (NewApplication noMetadata collectingManager callWebDefault).1 allSurvive

/-- A restarted manager (same configuration, empty map) after `LoadRunningApplies` against the
storage `webSaved` wrote to. -/
def webLoaded : RegistryManager :=
  (LoadRunningApplies collectingManager
    (GetAppliesByStatus webSaved.storage webSaved.storageCalls DeploymentStatusRunning)).1

/-! ## The event stream (`watcher/kubernetes/events.go`) -/

/-- The parts of a `v1.Event` that `Watch` reads.  `CreationTimestamp` is
`GetCreationTimestamp().Time.UnixNano()`, the creation time in nanoseconds since the epoch
(instants outside the range of `UnixNano` are not modelled). -/
structure K8sEvent where
  Message : String
  CreationTimestamp : Int
  Action : String
  ReportingController : String
deriving DecidableEq, Repr

/-- The dynamic type of `event.Object`: a `*v1.Event`, or anything else. -/
inductive WatchObject where
  | Event (eventData : K8sEvent)
  | Other
deriving DecidableEq, Repr

/-- One value received from `watcher.ResultChan()`, with the value of `time.Now()`, in
nanoseconds since the epoch, read while it is handled. -/
structure Received where
  object : WatchObject
  now : Int
deriving DecidableEq, Repr

/-- The largest `time.Duration`, in nanoseconds. -/
def maxDuration : Int := 2 ^ 63 - 1

/-- The smallest `time.Duration`, in nanoseconds. -/
def minDuration : Int := -2 ^ 63

/-- The method `Time.Sub`: the difference in nanoseconds, saturated to the range of a
`Duration`. -/
def timeSub (t u : Int) : Int :=
  if t - u > maxDuration then maxDuration
  else if t - u < minDuration then minDuration
  else t - u

/-- The method `Duration.Seconds`, `float64(d / Second) + float64(d % Second) / 1e9`, with the
`float64` operations taken exactly, as rationals.  (A number of nanoseconds below `30e9` is
below 30 by at least `1e-9`, far more than the rounding of a `float64` near 30, so the
comparison with 30 is not affected.) -/
def durationSeconds (d : Int) : ℚ :=
  (Int.tdiv d 1000000000 : ℚ) + (Int.tmod d 1000000000 : ℚ) / 1000000000

/-- The record `Watch` sends for an event. -/
def eventMessagesOf (eventData : K8sEvent) : EventMessages :=
  { Message := eventData.Message, Time := eventData.CreationTimestamp,
    Action := eventData.Action, ReportingController := eventData.ReportingController }

/-- The loop of the goroutine of `EventsManager.Watch` over the values received until the
channel is closed or the context is done: the records sent on `responses`, oldest first. -/
def watchLoop : List Received → List EventMessages
  | [] => []
  | r :: rest =>
    match r.object with
    | .Other => watchLoop rest
    | .Event eventData =>
      let diff := durationSeconds (timeSub r.now eventData.CreationTimestamp)
      if diff < 30 then eventMessagesOf eventData :: watchLoop rest
      else watchLoop rest

/-- An event created at second 100. -/
def eventAt100 : K8sEvent :=
  { Message := "Scaled up", CreationTimestamp := 100000000000, Action := "",
    ReportingController := "deployment-controller" }

/-! ## Lemmas on 32-bit arithmetic -/

theorem wrap32_add_left (a b : Int) : wrap32 (wrap32 a + b) = wrap32 (a + b) := by
  unfold wrap32
  have h : (a + 2 ^ 31) % 2 ^ 32 - 2 ^ 31 + b + 2 ^ 31 = (a + 2 ^ 31) % 2 ^ 32 + b := by ring
  rw [h, Int.emod_add_emod]
  congr 2; ring

theorem wrap32_of_isInt32 (x : Int) (h : isInt32 x) : wrap32 x = x := by
  unfold isInt32 at h
  unfold wrap32
  rw [Int.emod_eq_of_lt] <;> omega

theorem isInt32_wrap32 (x : Int) : isInt32 (wrap32 x) := by
  unfold wrap32 isInt32
  have h1 := Int.emod_nonneg (x + 2 ^ 31) (show (2 ^ 32 : Int) ≠ 0 by norm_num)
  have h2 := Int.emod_lt_of_pos (x + 2 ^ 31) (show (0 : Int) < 2 ^ 32 by norm_num)
  constructor <;> omega

theorem wrap32_eq_iff (a b : Int) : wrap32 a = wrap32 b ↔ a % 2 ^ 32 = b % 2 ^ 32 := by
  unfold wrap32
  constructor <;> intro h <;> omega

theorem isInt32_zero : isInt32 0 := by unfold isInt32; omega

/-- Two `int32` values are equal exactly when they are congruent modulo `2 ^ 32`. -/
theorem int32_eq_iff (a b : Int) (ha : isInt32 a) (hb : isInt32 b) :
    a = b ↔ a % 2 ^ 32 = b % 2 ^ 32 := by
  unfold isInt32 at ha hb
  constructor <;> intro h <;> omega

/-! ## What the loops compute -/

theorem replicasetLoop_spec (rs : GoMap Replicaset) (acc : DeploymentCounters) :
    (replicasetLoop rs acc).countOfRunningReplicas
        = acc.countOfRunningReplicas + runningReplicasetsOf rs
      ∧ (replicasetLoop rs acc).desiredStateCount = acc.desiredStateCount
      ∧ wrap32 (replicasetLoop rs acc).readyReplicasCount
        = wrap32 (acc.readyReplicasCount + readyOf rs)
      ∧ (isInt32 acc.readyReplicasCount → isInt32 (replicasetLoop rs acc).readyReplicasCount) := by
  induction rs generalizing acc with
  | nil => simp [replicasetLoop, runningReplicasetsOf, readyOf]
  | cons r rest ih =>
    obtain ⟨k, replica⟩ := r
    simp only [replicasetLoop]
    obtain ⟨h1, h2, h3, h4⟩ := ih
      { (if replica.Status.Replicas > 0 then
            { acc with countOfRunningReplicas := acc.countOfRunningReplicas + 1 }
          else acc) with
        readyReplicasCount :=
          add32 (if replica.Status.Replicas > 0 then
            { acc with countOfRunningReplicas := acc.countOfRunningReplicas + 1 }
          else acc).readyReplicasCount replica.Status.ReadyReplicas }
    refine ⟨?_, ?_, ?_, ?_⟩
    · rw [h1]
      by_cases hpos : replica.Status.Replicas > 0
      · simp [runningReplicasetsOf, List.filter_cons, hpos]; omega
      · simp [runningReplicasetsOf, List.filter_cons, hpos]
    · rw [h2]; split <;> rfl
    · rw [h3]
      have hr : (if replica.Status.Replicas > 0 then
            { acc with countOfRunningReplicas := acc.countOfRunningReplicas + 1 }
          else acc).readyReplicasCount = acc.readyReplicasCount := by split <;> rfl
      simp only [hr, add32, wrap32_add_left, readyOf, List.map_cons, List.sum_cons]
      congr 1; ring
    · intro _
      exact h4 (isInt32_wrap32 _)

theorem deploymentLoop_none_iff (elapsed : Int) (ds : GoMap DeploymentData)
    (acc : DeploymentCounters) :
    deploymentLoop elapsed ds acc = none ↔ ∃ d ∈ ds, d.2.ProgressDeadlineSeconds < elapsed := by
  induction ds generalizing acc with
  | nil => simp [deploymentLoop]
  | cons d rest ih =>
    obtain ⟨k, deployment⟩ := d
    simp only [deploymentLoop]
    by_cases hd : deployment.ProgressDeadlineSeconds < elapsed
    · simp [hd]
    · simp [hd, ih]

theorem deploymentLoop_spec (elapsed : Int) (ds : GoMap DeploymentData)
    (acc acc' : DeploymentCounters) (h : deploymentLoop elapsed ds acc = some acc') :
    acc'.countOfRunningReplicas = acc.countOfRunningReplicas + runningRsCount ds
      ∧ wrap32 acc'.desiredStateCount = wrap32 (acc.desiredStateCount + desiredTotal ds)
      ∧ wrap32 acc'.readyReplicasCount = wrap32 (acc.readyReplicasCount + readyTotal ds)
      ∧ (isInt32 acc.desiredStateCount → isInt32 acc'.desiredStateCount)
      ∧ (isInt32 acc.readyReplicasCount → isInt32 acc'.readyReplicasCount) := by
  induction ds generalizing acc with
  | nil =>
    simp only [deploymentLoop, Option.some.injEq] at h
    subst h
    simp [runningRsCount, desiredTotal, readyTotal]
  | cons d rest ih =>
    obtain ⟨k, deployment⟩ := d
    simp only [deploymentLoop] at h
    by_cases hd : deployment.ProgressDeadlineSeconds < elapsed
    · simp [hd] at h
    · simp only [hd, if_false] at h
      obtain ⟨h1, h2, h3, h4, h5⟩ := ih _ h
      obtain ⟨r1, r2, r3, r4⟩ := replicasetLoop_spec deployment.Replicaset
        { acc with desiredStateCount := add32 acc.desiredStateCount deployment.Deployment.DesiredState }
      refine ⟨?_, ?_, ?_, ?_, ?_⟩
      · rw [h1, r1]; simp [runningRsCount]; omega
      · rw [h2, r2]
        simp only [add32, wrap32_add_left, desiredTotal, List.map_cons, List.sum_cons]
        congr 1; ring
      · rw [h3, ← wrap32_add_left, r3, wrap32_add_left]
        simp only [readyTotal, List.map_cons, List.sum_cons]
        congr 1; ring
      · intro _
        apply h4
        rw [r2]
        exact isInt32_wrap32 _
      · intro hr
        exact h5 (r4 hr)

/-- What `isDeploymentFinish` computes once a deployment is tracked and no deadline has
passed. -/
theorem isDeploymentFinish_eq (wbr : RegistryRow) (elapsed : Int)
    (hne : wbr.DBSchema.Resources.Deployments ≠ [])
    (hdl : ¬ deploymentDeadlinePassed wbr elapsed) :
    isDeploymentFinish wbr elapsed
      = (decide ((wbr.DBSchema.Resources.Deployments.length
                    = runningRsCount wbr.DBSchema.Resources.Deployments
                  ∧ desiredTotal wbr.DBSchema.Resources.Deployments % 2 ^ 32
                    = readyTotal wbr.DBSchema.Resources.Deployments % 2 ^ 32)
                ∨ wbr.status = DeploymentStatusDeleted), none) := by
  have hlen : wbr.DBSchema.Resources.Deployments.length ≠ 0 := by
    simpa [List.length_eq_zero] using hne
  unfold isDeploymentFinish
  simp only [hlen, if_false]
  cases hloop : deploymentLoop elapsed wbr.DBSchema.Resources.Deployments ⟨0, 0, 0⟩ with
  | none => exact absurd ((deploymentLoop_none_iff _ _ _).1 hloop) hdl
  | some acc =>
    obtain ⟨h1, h2, h3, h4, h5⟩ := deploymentLoop_spec _ _ _ _ hloop
    simp only [zero_add] at h1 h2 h3
    have hc : acc.desiredStateCount = acc.readyReplicasCount
        ↔ desiredTotal wbr.DBSchema.Resources.Deployments % 2 ^ 32
          = readyTotal wbr.DBSchema.Resources.Deployments % 2 ^ 32 := by
      rw [← wrap32_eq_iff, ← h2, ← h3, wrap32_of_isInt32 _ (h4 isInt32_zero),
        wrap32_of_isInt32 _ (h5 isInt32_zero)]
    simp only [h1, hc]
    by_cases hcond : (wbr.DBSchema.Resources.Deployments.length
                    = runningRsCount wbr.DBSchema.Resources.Deployments
                  ∧ desiredTotal wbr.DBSchema.Resources.Deployments % 2 ^ 32
                    = readyTotal wbr.DBSchema.Resources.Deployments % 2 ^ 32)
                ∨ wbr.status = DeploymentStatusDeleted
    · rw [if_pos hcond, decide_eq_true hcond]
    · rw [if_neg hcond, decide_eq_false hcond]

/-! ## C1, C2: the deployment completion predicate -/

/-- C1 (as stated, refuted): on `overflowRow` (three deployments wanting 2147483647,
2147483647 and 2 replicas, three running replica-sets, nothing ready, no deadline passed, not
Deleted) `isDeploymentFinish` returns `(true, nil)` although the desired total 4294967296
differs from the ready total 0: the `int32` accumulator `desiredStateCount` has wrapped to 0. -/
theorem C1_counterexample :
    overflowRow.DBSchema.Resources.Deployments ≠ []
      ∧ ¬ deploymentDeadlinePassed overflowRow 10
      ∧ isDeploymentFinish overflowRow 10 = (true, none)
      ∧ ¬ ((overflowRow.DBSchema.Resources.Deployments.length
              = runningRsCount overflowRow.DBSchema.Resources.Deployments
            ∧ desiredTotal overflowRow.DBSchema.Resources.Deployments
              = readyTotal overflowRow.DBSchema.Resources.Deployments)
          ∨ overflowRow.status = DeploymentStatusDeleted) := by
  decide

/-- C1 (amended): for every row that tracks at least one deployment and in which no deployment
has `progress_deadline_s < elapsed`, `isDeploymentFinish` returns `(true, nil)` if and only if
(the number of deployments equals the number of replica-sets with `status.replicas > 0` and
the sum of `desired_state` is congruent modulo `2 ^ 32` to the sum of `ready_replicas`, both
being `int32` totals) or the row status is Deleted; otherwise it returns `(false, nil)`.  When
both sums fit in an `int32` the congruence is equality of the sums. -/
theorem C1_isDeploymentFinish_iff (wbr : RegistryRow) (elapsed : Int)
    (hne : wbr.DBSchema.Resources.Deployments ≠ [])
    (hdl : ¬ deploymentDeadlinePassed wbr elapsed) :
    (isDeploymentFinish wbr elapsed = (true, none)
        ↔ (wbr.DBSchema.Resources.Deployments.length
              = runningRsCount wbr.DBSchema.Resources.Deployments
            ∧ desiredTotal wbr.DBSchema.Resources.Deployments % 2 ^ 32
              = readyTotal wbr.DBSchema.Resources.Deployments % 2 ^ 32)
          ∨ wbr.status = DeploymentStatusDeleted)
      ∧ (isDeploymentFinish wbr elapsed ≠ (true, none)
          → isDeploymentFinish wbr elapsed = (false, none))
      ∧ (isInt32 (desiredTotal wbr.DBSchema.Resources.Deployments)
          → isInt32 (readyTotal wbr.DBSchema.Resources.Deployments)
          → (isDeploymentFinish wbr elapsed = (true, none)
              ↔ (wbr.DBSchema.Resources.Deployments.length
                    = runningRsCount wbr.DBSchema.Resources.Deployments
                  ∧ desiredTotal wbr.DBSchema.Resources.Deployments
                    = readyTotal wbr.DBSchema.Resources.Deployments)
                ∨ wbr.status = DeploymentStatusDeleted)) := by
  have heq := isDeploymentFinish_eq wbr elapsed hne hdl
  have hiff : isDeploymentFinish wbr elapsed = (true, none)
        ↔ (wbr.DBSchema.Resources.Deployments.length
              = runningRsCount wbr.DBSchema.Resources.Deployments
            ∧ desiredTotal wbr.DBSchema.Resources.Deployments % 2 ^ 32
              = readyTotal wbr.DBSchema.Resources.Deployments % 2 ^ 32)
          ∨ wbr.status = DeploymentStatusDeleted := by
    rw [heq]
    constructor
    · intro h
      exact of_decide_eq_true (congrArg Prod.fst h)
    · intro h
      rw [decide_eq_true h]
  refine ⟨hiff, ?_, ?_⟩
  · intro hnot
    rw [heq] at hnot ⊢
    cases hd : decide ((wbr.DBSchema.Resources.Deployments.length
              = runningRsCount wbr.DBSchema.Resources.Deployments
            ∧ desiredTotal wbr.DBSchema.Resources.Deployments % 2 ^ 32
              = readyTotal wbr.DBSchema.Resources.Deployments % 2 ^ 32)
          ∨ wbr.status = DeploymentStatusDeleted) with
    | false => rfl
    | true => exact absurd (by rw [hd]) hnot
  · intro hd hr
    rw [hiff, int32_eq_iff _ _ hd hr]

/-- C1 (witness): the row of scenario 1, ten seconds after creation. -/
theorem C1_isDeploymentFinish_iff_witness :
    happyRow.DBSchema.Resources.Deployments ≠ []
      ∧ ¬ deploymentDeadlinePassed happyRow 10
      ∧ isDeploymentFinish happyRow 10 = (true, none) :=
  ⟨by decide, by decide,
    (C1_isDeploymentFinish_iff happyRow 10 (by decide) (by decide)).1.2 (by decide)⟩

/-- C2: `isDeploymentFinish` returns an error if and only if the row tracks at least one
deployment and some tracked deployment has `progress_deadline_s < elapsed`; whenever it
returns an error the boolean is `false`, whatever the status and the counts; and for a row
with no deployments it returns `(true, nil)` for every elapsed time and status. -/
theorem C2_isDeploymentFinish_error_iff (wbr : RegistryRow) (elapsed : Int) :
    ((isDeploymentFinish wbr elapsed).2 ≠ none
        ↔ wbr.DBSchema.Resources.Deployments ≠ [] ∧ deploymentDeadlinePassed wbr elapsed)
      ∧ ((isDeploymentFinish wbr elapsed).2 ≠ none → (isDeploymentFinish wbr elapsed).1 = false)
      ∧ (wbr.DBSchema.Resources.Deployments = []
          → isDeploymentFinish wbr elapsed = (true, none)) := by
  by_cases hne : wbr.DBSchema.Resources.Deployments = []
  · have h0 : isDeploymentFinish wbr elapsed = (true, none) := by
      unfold isDeploymentFinish
      simp [hne]
    refine ⟨?_, ?_, fun _ => h0⟩
    · rw [h0]; simp [hne]
    · rw [h0]; simp
  · by_cases hdl : deploymentDeadlinePassed wbr elapsed
    · have h1 : isDeploymentFinish wbr elapsed = (false, some progressDeadlineError) := by
        have hlen : wbr.DBSchema.Resources.Deployments.length ≠ 0 := by
          simpa [List.length_eq_zero] using hne
        unfold isDeploymentFinish
        simp only [hlen, if_false]
        rw [(deploymentLoop_none_iff elapsed _ _).2 hdl]
      refine ⟨?_, ?_, fun h => absurd h hne⟩
      · rw [h1]; simp [hne, hdl]
      · rw [h1]; simp
    · have h2 := isDeploymentFinish_eq wbr elapsed hne hdl
      refine ⟨?_, ?_, fun h => absurd h hne⟩
      · rw [h2]; simp [hdl]
      · rw [h2]; simp

/-! ## C3, C4: the daemonset completion predicate -/

theorem daemonsetLoop_none_iff (elapsed : Int) (ss : GoMap DaemonsetData)
    (acc : DaemonsetCounters) :
    daemonsetLoop elapsed ss acc = none ↔ ∃ s ∈ ss, s.2.ProgressDeadlineSeconds < elapsed := by
  induction ss generalizing acc with
  | nil => simp [daemonsetLoop]
  | cons s rest ih =>
    obtain ⟨k, daemonset⟩ := s
    simp only [daemonsetLoop]
    by_cases hd : daemonset.ProgressDeadlineSeconds < elapsed
    · simp [hd]
    · simp [hd, ih]

theorem daemonsetLoop_spec (elapsed : Int) (ss : GoMap DaemonsetData)
    (acc acc' : DaemonsetCounters) (h : daemonsetLoop elapsed ss acc = some acc') :
    wrap32 acc'.totalDesiredPods = wrap32 (acc.totalDesiredPods + desiredScheduledTotal ss)
      ∧ wrap32 acc'.totalUpdatedPodsOnNodes
        = wrap32 (acc.totalUpdatedPodsOnNodes + desiredScheduledTotal ss)
      ∧ wrap32 acc'.totalCurrentPods = wrap32 (acc.totalCurrentPods + currentScheduledTotal ss)
      ∧ (isInt32 acc.totalDesiredPods → isInt32 acc'.totalDesiredPods)
      ∧ (isInt32 acc.totalUpdatedPodsOnNodes → isInt32 acc'.totalUpdatedPodsOnNodes)
      ∧ (isInt32 acc.totalCurrentPods → isInt32 acc'.totalCurrentPods) := by
  induction ss generalizing acc with
  | nil =>
    simp only [daemonsetLoop, Option.some.injEq] at h
    subst h
    simp [desiredScheduledTotal, currentScheduledTotal]
  | cons s rest ih =>
    obtain ⟨k, daemonset⟩ := s
    simp only [daemonsetLoop] at h
    by_cases hd : daemonset.ProgressDeadlineSeconds < elapsed
    · simp [hd] at h
    · simp only [hd, if_false] at h
      obtain ⟨h1, h2, h3, h4, h5, h6⟩ := ih _ h
      refine ⟨?_, ?_, ?_, fun _ => h4 (isInt32_wrap32 _), fun _ => h5 (isInt32_wrap32 _),
        fun _ => h6 (isInt32_wrap32 _)⟩
      · rw [h1]
        simp only [add32, wrap32_add_left, desiredScheduledTotal, List.map_cons, List.sum_cons]
        congr 1; ring
      · rw [h2]
        simp only [add32, wrap32_add_left, desiredScheduledTotal, List.map_cons, List.sum_cons]
        congr 1; ring
      · rw [h3]
        simp only [add32, wrap32_add_left, currentScheduledTotal, List.map_cons, List.sum_cons]
        congr 1; ring

/-- What `isDaemonSetFinish` computes once a daemonset is tracked and no deadline has passed. -/
theorem isDaemonSetFinish_eq (wbr : RegistryRow) (elapsed : Int)
    (hne : wbr.DBSchema.Resources.Daemonsets ≠ [])
    (hdl : ¬ daemonsetDeadlinePassed wbr elapsed) :
    isDaemonSetFinish wbr elapsed
      = (decide (desiredScheduledTotal wbr.DBSchema.Resources.Daemonsets % 2 ^ 32
                    = currentScheduledTotal wbr.DBSchema.Resources.Daemonsets % 2 ^ 32
                ∨ wbr.status = DeploymentStatusDeleted), none) := by
  have hlen : wbr.DBSchema.Resources.Daemonsets.length ≠ 0 := by
    simpa [List.length_eq_zero] using hne
  unfold isDaemonSetFinish
  simp only [hlen, if_false]
  cases hloop : daemonsetLoop elapsed wbr.DBSchema.Resources.Daemonsets ⟨0, 0, 0⟩ with
  | none => exact absurd ((daemonsetLoop_none_iff _ _ _).1 hloop) hdl
  | some acc =>
    obtain ⟨h1, h2, h3, h4, h5, h6⟩ := daemonsetLoop_spec _ _ _ _ hloop
    simp only [zero_add] at h1 h2 h3
    have hu : acc.totalDesiredPods = acc.totalUpdatedPodsOnNodes := by
      rw [← wrap32_of_isInt32 _ (h4 isInt32_zero), ← wrap32_of_isInt32 _ (h5 isInt32_zero), h1, h2]
    have hc : acc.totalDesiredPods = acc.totalCurrentPods
        ↔ desiredScheduledTotal wbr.DBSchema.Resources.Daemonsets % 2 ^ 32
          = currentScheduledTotal wbr.DBSchema.Resources.Daemonsets % 2 ^ 32 := by
      rw [← wrap32_eq_iff, ← h1, ← h3, wrap32_of_isInt32 _ (h4 isInt32_zero),
        wrap32_of_isInt32 _ (h6 isInt32_zero)]
    simp only [← hu, and_true, hc]
    by_cases hcond : desiredScheduledTotal wbr.DBSchema.Resources.Daemonsets % 2 ^ 32
                    = currentScheduledTotal wbr.DBSchema.Resources.Daemonsets % 2 ^ 32
                ∨ wbr.status = DeploymentStatusDeleted
    · rw [if_pos hcond, decide_eq_true hcond]
    · rw [if_neg hcond, decide_eq_false hcond]

theorem daemonsetLoop_eraseUpdated (elapsed : Int) (ss : GoMap DaemonsetData)
    (acc : DaemonsetCounters) :
    daemonsetLoop elapsed (ss.map fun s =>
        (s.1, { s.2 with Status := { s.2.Status with UpdatedNumberScheduled := 0 } })) acc
      = daemonsetLoop elapsed ss acc := by
  induction ss generalizing acc with
  | nil => rfl
  | cons s rest ih =>
    obtain ⟨k, daemonset⟩ := s
    simp only [List.map_cons, daemonsetLoop]
    split
    · rfl
    · exact ih _

theorem isDaemonSetFinish_eraseUpdated (wbr : RegistryRow) (elapsed : Int) :
    isDaemonSetFinish (eraseUpdated wbr) elapsed = isDaemonSetFinish wbr elapsed := by
  unfold isDaemonSetFinish eraseUpdated
  simp only [List.length_map, daemonsetLoop_eraseUpdated]

/-- C3 (the code at the failing input): `staleDaemonsetRow` is not Deleted and tracks one
daemonset within its deadline with `DesiredNumberScheduled = 3`, `CurrentNumberScheduled = 3`
and `UpdatedNumberScheduled = 0`; `isDaemonSetFinish` returns `(true, nil)` although the total
desired (3) differs from the total updated (0). -/
theorem C3_isDaemonSetFinish_ignores_updated :
    staleDaemonsetRow.status ≠ DeploymentStatusDeleted
      ∧ staleDaemonsetRow.DBSchema.Resources.Daemonsets ≠ []
      ∧ ¬ daemonsetDeadlinePassed staleDaemonsetRow 10
      ∧ isDaemonSetFinish staleDaemonsetRow 10 = (true, none)
      ∧ desiredScheduledTotal staleDaemonsetRow.DBSchema.Resources.Daemonsets
        ≠ updatedScheduledTotal staleDaemonsetRow.DBSchema.Resources.Daemonsets := by
  decide

/-- C4 (as stated, refuted): on `overflowDaemonsetRow` (three daemonsets wanting 2147483647,
2147483647 and 2 pods, none scheduled, no deadline passed, not Deleted) `isDaemonSetFinish`
returns `(true, nil)` although the desired total 4294967296 differs from the current total 0:
the `int32` accumulator `totalDesiredPods` has wrapped to 0. -/
theorem C4_counterexample :
    overflowDaemonsetRow.DBSchema.Resources.Daemonsets ≠ []
      ∧ ¬ daemonsetDeadlinePassed overflowDaemonsetRow 10
      ∧ isDaemonSetFinish overflowDaemonsetRow 10 = (true, none)
      ∧ ¬ (desiredScheduledTotal overflowDaemonsetRow.DBSchema.Resources.Daemonsets
            = currentScheduledTotal overflowDaemonsetRow.DBSchema.Resources.Daemonsets
          ∨ overflowDaemonsetRow.status = DeploymentStatusDeleted) := by
  decide

/-- C4 (amended): for every row that tracks at least one daemonset, all within their progress
deadline, `isDaemonSetFinish` returns `(true, nil)` if and only if the sum of
`desired_number_scheduled` is congruent modulo `2 ^ 32` to the sum of
`current_number_scheduled` (both being `int32` totals; equal when both sums fit in an `int32`)
or the row status is Deleted; the `desired = updated` conjunct is always true (the two
accumulators are equal after the loop), so the result is the same for any two rows that differ
only in the daemonsets' `updated_number_scheduled` values. -/
theorem C4_isDaemonSetFinish_iff (wbr : RegistryRow) (elapsed : Int)
    (hne : wbr.DBSchema.Resources.Daemonsets ≠ [])
    (hdl : ¬ daemonsetDeadlinePassed wbr elapsed) :
    (isDaemonSetFinish wbr elapsed = (true, none)
        ↔ desiredScheduledTotal wbr.DBSchema.Resources.Daemonsets % 2 ^ 32
            = currentScheduledTotal wbr.DBSchema.Resources.Daemonsets % 2 ^ 32
          ∨ wbr.status = DeploymentStatusDeleted)
      ∧ (isInt32 (desiredScheduledTotal wbr.DBSchema.Resources.Daemonsets)
          → isInt32 (currentScheduledTotal wbr.DBSchema.Resources.Daemonsets)
          → (isDaemonSetFinish wbr elapsed = (true, none)
              ↔ desiredScheduledTotal wbr.DBSchema.Resources.Daemonsets
                  = currentScheduledTotal wbr.DBSchema.Resources.Daemonsets
                ∨ wbr.status = DeploymentStatusDeleted))
      ∧ (∀ acc, daemonsetLoop elapsed wbr.DBSchema.Resources.Daemonsets ⟨0, 0, 0⟩ = some acc
          → acc.totalDesiredPods = acc.totalUpdatedPodsOnNodes)
      ∧ (∀ wbr' : RegistryRow, eraseUpdated wbr' = eraseUpdated wbr
          → isDaemonSetFinish wbr' elapsed = isDaemonSetFinish wbr elapsed) := by
  have heq := isDaemonSetFinish_eq wbr elapsed hne hdl
  have hiff : isDaemonSetFinish wbr elapsed = (true, none)
        ↔ desiredScheduledTotal wbr.DBSchema.Resources.Daemonsets % 2 ^ 32
            = currentScheduledTotal wbr.DBSchema.Resources.Daemonsets % 2 ^ 32
          ∨ wbr.status = DeploymentStatusDeleted := by
    rw [heq]
    constructor
    · intro h
      exact of_decide_eq_true (congrArg Prod.fst h)
    · intro h
      rw [decide_eq_true h]
  refine ⟨hiff, ?_, ?_, ?_⟩
  · intro hd hc
    rw [hiff, int32_eq_iff _ _ hd hc]
  · intro acc hloop
    obtain ⟨h1, h2, _, h4, h5, _⟩ := daemonsetLoop_spec _ _ _ _ hloop
    rw [← wrap32_of_isInt32 _ (h4 isInt32_zero), ← wrap32_of_isInt32 _ (h5 isInt32_zero), h1, h2]
  · intro wbr' h
    rw [← isDaemonSetFinish_eraseUpdated wbr', h, isDaemonSetFinish_eraseUpdated]

/-- C4 (witness): one daemonset wanting 2 pods with 2 scheduled, ten seconds after creation;
the row with none updated gives the same result. -/
theorem C4_isDaemonSetFinish_iff_witness :
    happyDaemonsetRow.DBSchema.Resources.Daemonsets ≠ []
      ∧ ¬ daemonsetDeadlinePassed happyDaemonsetRow 10
      ∧ isDaemonSetFinish happyDaemonsetRow 10 = (true, none)
      ∧ isDaemonSetFinish
          (mkRow DeploymentStatusRunning [] [("ds", mkDaemonset "ds" 2 2 0 600)]) 10
        = isDaemonSetFinish happyDaemonsetRow 10 :=
  ⟨by decide, by decide,
    (C4_isDaemonSetFinish_iff happyDaemonsetRow 10 (by decide) (by decide)).1.2 (by decide),
    (C4_isDaemonSetFinish_iff happyDaemonsetRow 10 (by decide) (by decide)).2.2.2 _ (by decide)⟩

/-! ## C5, C6: the detector -/

/-- C5: one detector tick on a row that is not Deleted and not finished.  If
`isDeploymentFinish` or `isDaemonSetFinish` returns an error, the row becomes terminal with
status Failed and description ProgressDeadline, whatever the other predicate returned, and the
goroutine returns; otherwise, if both returned `true`, the row becomes terminal with status
Successful and description Successful; otherwise the row is left as it was and the goroutine
has not returned. -/
theorem C5_isFinishTick_decides (wbr : RegistryRow) (n : Nat) (elapsedDep elapsedDs : Int)
    (_hdel : wbr.status ≠ DeploymentStatusDeleted) (hfin : wbr.finish = false) :
    (((isDeploymentFinish wbr elapsedDep).2 ≠ none ∨ (isDaemonSetFinish wbr elapsedDs).2 ≠ none)
        → (isFinishTick ⟨wbr, false, n⟩ elapsedDep elapsedDs).row.finish = true
          ∧ (isFinishTick ⟨wbr, false, n⟩ elapsedDep elapsedDs).row.status
            = DeploymentStatusFailed
          ∧ (isFinishTick ⟨wbr, false, n⟩ elapsedDep elapsedDs).row.DBSchema.DeploymentDescription
            = DeploymentStatusDescriptionProgressDeadline
          ∧ (isFinishTick ⟨wbr, false, n⟩ elapsedDep elapsedDs).returned = true)
      ∧ ((isDeploymentFinish wbr elapsedDep).2 = none ∧ (isDaemonSetFinish wbr elapsedDs).2 = none
        → (isDeploymentFinish wbr elapsedDep).1 = true ∧ (isDaemonSetFinish wbr elapsedDs).1 = true
        → (isFinishTick ⟨wbr, false, n⟩ elapsedDep elapsedDs).row.finish = true
          ∧ (isFinishTick ⟨wbr, false, n⟩ elapsedDep elapsedDs).row.status = DeploymentSuccessful
          ∧ (isFinishTick ⟨wbr, false, n⟩ elapsedDep elapsedDs).row.DBSchema.DeploymentDescription
            = DeploymentStatusDescriptionSuccessful)
      ∧ ((isDeploymentFinish wbr elapsedDep).2 = none ∧ (isDaemonSetFinish wbr elapsedDs).2 = none
        → ¬ ((isDeploymentFinish wbr elapsedDep).1 = true
              ∧ (isDaemonSetFinish wbr elapsedDs).1 = true)
        → (isFinishTick ⟨wbr, false, n⟩ elapsedDep elapsedDs).row = wbr
          ∧ (isFinishTick ⟨wbr, false, n⟩ elapsedDep elapsedDs).returned = false) := by
  unfold isFinishTick
  simp only [hfin, Bool.false_eq_true, if_false]
  refine ⟨?_, ?_, ?_⟩
  · intro herr
    have herr' : (isDaemonSetFinish wbr elapsedDs).2 ≠ none
        ∨ (isDeploymentFinish wbr elapsedDep).2 ≠ none := herr.symm
    rw [if_pos herr']
    simp [Stop, cancelFn]
  · rintro ⟨h1, h2⟩ hboth
    have hno : ¬ ((isDaemonSetFinish wbr elapsedDs).2 ≠ none
        ∨ (isDeploymentFinish wbr elapsedDep).2 ≠ none) := by simp [h1, h2]
    rw [if_neg hno, if_pos hboth]
    simp [Stop, cancelFn]
  · rintro ⟨h1, h2⟩ hnot
    have hno : ¬ ((isDaemonSetFinish wbr elapsedDs).2 ≠ none
        ∨ (isDeploymentFinish wbr elapsedDep).2 ≠ none) := by simp [h1, h2]
    rw [if_neg hno, if_neg hnot]
    exact ⟨rfl, rfl⟩

/-- C5 (witness): the three outcomes on the rows of scenario 2 (deadline passed although the
replicas are ready), scenario 1 (ready) and scenario 1 before the replicas are ready. -/
theorem C5_isFinishTick_decides_witness :
    (lateRow.status ≠ DeploymentStatusDeleted ∧ lateRow.finish = false
        ∧ (isFinishTick ⟨lateRow, false, 0⟩ 3 3).row.status = DeploymentStatusFailed)
      ∧ (isFinishTick ⟨happyRow, false, 0⟩ 3 3).row.status = DeploymentSuccessful
      ∧ (isFinishTick ⟨pendingRow, false, 0⟩ 3 3).row = pendingRow :=
  ⟨⟨by decide, by decide,
      ((C5_isFinishTick_decides lateRow 0 3 3 (by decide) (by decide)).1 (by decide)).2.1⟩,
    ((C5_isFinishTick_decides happyRow 0 3 3 (by decide) (by decide)).2.1
      (by decide) (by decide)).2.1,
    ((C5_isFinishTick_decides pendingRow 0 3 3 (by decide) (by decide)).2.2
      (by decide) (by decide)).1⟩

/-- C6: for every row whose status is Deleted when the detector starts, whatever its tracked
resources, the clock and the number of ticks allowed, the detector returns without evaluating
the completion predicates and leaves the row with `finish = true`, status Deleted and
description Successful; nothing else of the row changes but the cancelled context. -/
theorem C6_isFinish_deleted (clock : Nat → Int × Int) (fuel : Nat) (wbr : RegistryRow)
    (h : wbr.status = DeploymentStatusDeleted) :
    (isFinish clock fuel wbr).returned = true
      ∧ (isFinish clock fuel wbr).evaluations = 0
      ∧ (isFinish clock fuel wbr).row.finish = true
      ∧ (isFinish clock fuel wbr).row.status = DeploymentStatusDeleted
      ∧ (isFinish clock fuel wbr).row.DBSchema.DeploymentDescription
        = DeploymentStatusDescriptionSuccessful
      ∧ (isFinish clock fuel wbr).row
        = { wbr with
            finish := true, cancelled := true
            DBSchema := { wbr.DBSchema with
              DeploymentDescription := DeploymentStatusDescriptionSuccessful } } := by
  unfold isFinish
  rw [if_pos h]
  simp [Stop, cancelFn, h]

/-- C6 (witness): the Deleted row of scenario 3, a thousand seconds after creation, past every
deadline. -/
theorem C6_isFinish_deleted_witness :
    deletedRow.status = DeploymentStatusDeleted
      ∧ (isFinish (fun _ => (1000, 1000)) 5 deletedRow).evaluations = 0
      ∧ (isFinish (fun _ => (1000, 1000)) 5 deletedRow).row.finish = true :=
  ⟨by decide, (C6_isFinish_deleted (fun _ => (1000, 1000)) 5 deletedRow (by decide)).2.1,
    (C6_isFinish_deleted (fun _ => (1000, 1000)) 5 deletedRow (by decide)).2.2.1⟩

/-! ## C7: under-reported replica-set statuses -/

theorem replicasets_underReports (us fs : GoMap Replicaset)
    (h : List.Forall₂ replicasetUnderReports us fs) :
    runningReplicasetsOf us ≤ runningReplicasetsOf fs ∧ readyOf us ≤ readyOf fs := by
  induction h with
  | nil => simp
  | @cons u f us' fs' hd _ ih =>
    obtain ⟨_, _, hrep, hready, _⟩ := hd
    obtain ⟨ih1, ih2⟩ := ih
    constructor
    · simp only [runningReplicasetsOf, List.filter_cons] at ih1 ⊢
      by_cases hu : u.2.Status.Replicas > 0
      · have hf : f.2.Status.Replicas > 0 := by omega
        simp only [hu, hf, decide_True, if_true, List.length_cons]
        omega
      · by_cases hf : f.2.Status.Replicas > 0
        · simp only [hu, hf, decide_True, decide_False, if_true, List.length_cons]
          simp only [Bool.false_eq_true, if_false]
          omega
        · simp only [hu, hf, decide_False, Bool.false_eq_true, if_false]
          exact ih1
    · simp only [readyOf, List.map_cons, List.sum_cons] at ih2 ⊢
      omega

theorem deployments_underReports (us fs : GoMap DeploymentData)
    (h : List.Forall₂ deploymentUnderReports us fs) :
    us.length = fs.length
      ∧ runningRsCount us ≤ runningRsCount fs
      ∧ readyTotal us ≤ readyTotal fs
      ∧ desiredTotal us = desiredTotal fs
      ∧ ∀ elapsed : Int, (∃ d ∈ us, d.2.ProgressDeadlineSeconds < elapsed)
          ↔ (∃ d ∈ fs, d.2.ProgressDeadlineSeconds < elapsed) := by
  induction h with
  | nil => simp [runningRsCount, readyTotal, desiredTotal]
  | @cons u f us' fs' hd _ ih =>
    obtain ⟨_, hmeta, _, _, _, hdead, hrs⟩ := hd
    obtain ⟨ih1, ih2, ih3, ih4, ih5⟩ := ih
    obtain ⟨r1, r2⟩ := replicasets_underReports _ _ hrs
    refine ⟨?_, ?_, ?_, ?_, ?_⟩
    · simp [ih1]
    · simp only [runningRsCount, List.map_cons, List.sum_cons] at ih2 ⊢
      omega
    · simp only [readyTotal, List.map_cons, List.sum_cons] at ih3 ⊢
      omega
    · simp only [desiredTotal, List.map_cons, List.sum_cons] at ih4 ⊢
      rw [hmeta, ih4]
    · intro elapsed
      simp only [List.mem_cons, exists_eq_or_imp, hdead, ih5 elapsed]

/-- When `isDeploymentFinish` returns an error: exactly when a tracked deployment is past its
deadline, and then with `false`. -/
theorem isDeploymentFinish_error (wbr : RegistryRow) (elapsed : Int) :
    ((isDeploymentFinish wbr elapsed).2 ≠ none
        ↔ wbr.DBSchema.Resources.Deployments ≠ [] ∧ deploymentDeadlinePassed wbr elapsed)
      ∧ ((isDeploymentFinish wbr elapsed).2 ≠ none
          → (isDeploymentFinish wbr elapsed).1 = false) := by
  by_cases hne : wbr.DBSchema.Resources.Deployments = []
  · have h0 : isDeploymentFinish wbr elapsed = (true, none) := by
      unfold isDeploymentFinish
      simp [hne]
    rw [h0]; simp [hne]
  · by_cases hdl : deploymentDeadlinePassed wbr elapsed
    · have h1 : isDeploymentFinish wbr elapsed = (false, some progressDeadlineError) := by
        have hlen : wbr.DBSchema.Resources.Deployments.length ≠ 0 := by
          simpa [List.length_eq_zero] using hne
        unfold isDeploymentFinish
        simp only [hlen, if_false]
        rw [(deploymentLoop_none_iff elapsed _ _).2 hdl]
      rw [h1]; simp [hne, hdl]
    · rw [isDeploymentFinish_eq wbr elapsed hne hdl]; simp [hdl]

/-- C7 (as stated, refuted): `rollingRowUnderReported` is `rollingRow` with the old
replica-set's `status.replicas` reported as 0 instead of 1; `isDeploymentFinish` returns `true`
on the under-reported row (one running replica-set for one deployment, 3 ready of 3 desired)
and `false` on the fully reported row (two running replica-sets for one deployment). -/
theorem C7_counterexample :
    underReports rollingRowUnderReported rollingRow
      ∧ isDeploymentFinish rollingRowUnderReported 10 = (true, none)
      ∧ isDeploymentFinish rollingRow 10 = (false, none) := by
  decide

/-- C7 (amended): for every two rows that are identical except that in the first each
replica-set's `status.replicas` and `status.ready_replicas` are less than or equal to the
second row's values, with desired and reported ready totals that fit in an `int32`: if
`isDeploymentFinish` returns `true` on the under-reported row, then on the fully reported row
it returns no error; unless that row is Deleted or tracks no deployment it has no shortfall
(at least as many running replica-sets as deployments, at least as many ready replicas as
desired); and it returns `true` there whenever it has no surplus either (no more running
replica-sets than deployments, no more ready replicas than desired). -/
theorem C7_underReport_no_shortfall (u f : RegistryRow) (elapsed : Int)
    (hur : underReports u f)
    (hu : (isDeploymentFinish u elapsed).1 = true)
    (hd : isInt32 (desiredTotal f.DBSchema.Resources.Deployments))
    (hr : isInt32 (readyTotal u.DBSchema.Resources.Deployments)) :
    (isDeploymentFinish f elapsed).2 = none
      ∧ (f.status ≠ DeploymentStatusDeleted → f.DBSchema.Resources.Deployments ≠ []
          → f.DBSchema.Resources.Deployments.length
              ≤ runningRsCount f.DBSchema.Resources.Deployments
            ∧ desiredTotal f.DBSchema.Resources.Deployments
              ≤ readyTotal f.DBSchema.Resources.Deployments)
      ∧ (runningRsCount f.DBSchema.Resources.Deployments
            ≤ f.DBSchema.Resources.Deployments.length
          → readyTotal f.DBSchema.Resources.Deployments
            ≤ desiredTotal f.DBSchema.Resources.Deployments
          → isDeploymentFinish f elapsed = (true, none)) := by
  obtain ⟨_, _, hstatus, _, _, _, _, hdeps⟩ := hur
  obtain ⟨hlen, hcount, hready, hdesired, hdead⟩ := deployments_underReports _ _ hdeps
  by_cases hfe : f.DBSchema.Resources.Deployments = []
  · have h0 : isDeploymentFinish f elapsed = (true, none) := by
      unfold isDeploymentFinish
      simp [hfe]
    exact ⟨by rw [h0], fun _ hne => absurd hfe hne, fun _ _ => h0⟩
  · have hue : u.DBSchema.Resources.Deployments ≠ [] := by
      intro h
      rw [h] at hlen
      exact hfe (List.length_eq_zero.1 hlen.symm)
    have hudl : ¬ deploymentDeadlinePassed u elapsed := by
      intro hp
      have herr := ((isDeploymentFinish_error u elapsed).1).2 ⟨hue, hp⟩
      have hfalse := (isDeploymentFinish_error u elapsed).2 herr
      rw [hfalse] at hu
      exact Bool.false_ne_true hu
    have hfdl : ¬ deploymentDeadlinePassed f elapsed := fun hp =>
      hudl ((hdead elapsed).2 hp)
    have hueq := isDeploymentFinish_eq u elapsed hue hudl
    have hfeq := isDeploymentFinish_eq f elapsed hfe hfdl
    rw [hueq] at hu
    have hucond := of_decide_eq_true hu
    rw [hdesired] at hucond
    have hdr : u.status ≠ DeploymentStatusDeleted
        → u.DBSchema.Resources.Deployments.length
            = runningRsCount u.DBSchema.Resources.Deployments
          ∧ desiredTotal f.DBSchema.Resources.Deployments
            = readyTotal u.DBSchema.Resources.Deployments := by
      intro hnd
      rcases hucond with ⟨h1, h2⟩ | h3
      · exact ⟨h1, (int32_eq_iff _ _ hd hr).2 h2⟩
      · exact absurd h3 hnd
    refine ⟨by rw [hfeq], ?_, ?_⟩
    · intro hnd _
      obtain ⟨h1, h2⟩ := hdr (by rw [hstatus]; exact hnd)
      constructor <;> omega
    · intro hc hrd
      rw [hfeq]
      by_cases hdel : f.status = DeploymentStatusDeleted
      · rw [decide_eq_true (Or.inr hdel)]
      · obtain ⟨h1, h2⟩ := hdr (by rw [hstatus]; exact hdel)
        have e1 : f.DBSchema.Resources.Deployments.length
            = runningRsCount f.DBSchema.Resources.Deployments := by omega
        have e2 : desiredTotal f.DBSchema.Resources.Deployments
            = readyTotal f.DBSchema.Resources.Deployments := by omega
        rw [decide_eq_true (Or.inl ⟨e1, by rw [e2]⟩)]

/-- C7 (witness): the rolling update; the under-reported row is declared finished, the fully
reported row raises no error and has the surplus of one running replica-set. -/
theorem C7_underReport_no_shortfall_witness :
    underReports rollingRowUnderReported rollingRow
      ∧ (isDeploymentFinish rollingRowUnderReported 10).1 = true
      ∧ (isDeploymentFinish rollingRow 10).2 = none
      ∧ rollingRow.DBSchema.Resources.Deployments.length
          ≤ runningRsCount rollingRow.DBSchema.Resources.Deployments :=
  ⟨by decide, by decide,
    (C7_underReport_no_shortfall rollingRowUnderReported rollingRow 10
      (by decide) (by decide) (by decide) (by decide)).1,
    ((C7_underReport_no_shortfall rollingRowUnderReported rollingRow 10
      (by decide) (by decide) (by decide) (by decide)).2.1 (by decide) (by decide)).1⟩

/-! ## Lemmas on maps -/

theorem GoMap.get_set_self {V : Type} (m : GoMap V) (k : String) (v : V) :
    (m.set k v).get k = some v := by
  induction m with
  | nil => simp [GoMap.set, GoMap.get]
  | cons e rest ih =>
    obtain ⟨k', v'⟩ := e
    by_cases h : k' = k
    · simp [GoMap.set, GoMap.get, h]
    · simp [GoMap.set, GoMap.get, h, ih]

theorem GoMap.get_set_other {V : Type} (m : GoMap V) (k k2 : String) (v : V) (hne : k2 ≠ k) :
    (m.set k v).get k2 = m.get k2 := by
  induction m with
  | nil => simp [GoMap.set, GoMap.get, Ne.symm hne]
  | cons e rest ih =>
    obtain ⟨k', v'⟩ := e
    by_cases h : k' = k
    · subst h
      simp [GoMap.set, GoMap.get, Ne.symm hne]
    · by_cases h2 : k' = k2
      · subst h2
        simp [GoMap.set, GoMap.get, hne]
      · simp [GoMap.set, GoMap.get, h, h2, ih]

theorem GoMap.set_of_get_none {V : Type} (m : GoMap V) (k : String) (v : V)
    (h : m.get k = none) : m.set k v = m ++ [(k, v)] := by
  induction m with
  | nil => rfl
  | cons e rest ih =>
    obtain ⟨k', v'⟩ := e
    by_cases hk : k' = k
    · simp [GoMap.get, hk] at h
    · simp only [GoMap.get, hk, if_false] at h
      simp [GoMap.set, hk, ih h]

theorem GoMap.length_set_of_get_some {V : Type} (m : GoMap V) (k : String) (v w : V)
    (h : m.get k = some w) : (m.set k v).length = m.length := by
  induction m with
  | nil => simp [GoMap.get] at h
  | cons e rest ih =>
    obtain ⟨k', v'⟩ := e
    by_cases hk : k' = k
    · simp [GoMap.set, hk]
    · simp only [GoMap.get, hk, if_false] at h
      simp [GoMap.set, hk, ih h]

theorem GoMap.mem_of_get {V : Type} (m : GoMap V) (k : String) (v : V)
    (h : m.get k = some v) : (k, v) ∈ m := by
  induction m with
  | nil => simp [GoMap.get] at h
  | cons e rest ih =>
    obtain ⟨k', v'⟩ := e
    by_cases hk : k' = k
    · simp only [GoMap.get, hk, if_true, Option.some.injEq] at h
      simp [hk, h]
    · simp only [GoMap.get, hk, if_false] at h
      exact List.mem_cons_of_mem _ (ih h)

theorem GoMap.mem_set {V : Type} (m : GoMap V) (k : String) (v : V) (x : String × V)
    (h : x ∈ m.set k v) : x ∈ m ∨ x = (k, v) := by
  induction m with
  | nil =>
    simp only [GoMap.set, List.mem_singleton] at h
    exact Or.inr h
  | cons e rest ih =>
    obtain ⟨k', v'⟩ := e
    by_cases hk : k' = k
    · simp only [GoMap.set, hk, if_true, List.mem_cons] at h
      rcases h with h | h
      · exact Or.inr h
      · exact Or.inl (List.mem_cons_of_mem _ h)
    · simp only [GoMap.set, hk, if_false, List.mem_cons] at h
      rcases h with h | h
      · exact Or.inl (by simp [h])
      · rcases ih h with h' | h'
        · exact Or.inl (List.mem_cons_of_mem _ h')
        · exact Or.inr h'

/-! ## Lemmas on the saved events -/

theorem hasSavedEvent_iff (events : List EventMessages) (event : EventMessages) :
    hasSavedEvent events event = true ↔ ∃ s ∈ events, sameMessageTime s event := by
  induction events with
  | nil => simp [hasSavedEvent]
  | cons s rest ih =>
    by_cases h : s.Message = event.Message ∧ s.Time = event.Time
    · simp [hasSavedEvent, h, sameMessageTime]
    · simp only [hasSavedEvent, h, if_false, ih, List.mem_cons, exists_eq_or_imp,
        sameMessageTime, false_or]

theorem occurrences_append_self (events : List EventMessages) (event : EventMessages) :
    occurrences (events ++ [event]) event = occurrences events event + 1 := by
  simp [occurrences, List.countP_append, List.countP_cons, sameMessageTime]

theorem occurrences_eq_zero (events : List EventMessages) (event : EventMessages)
    (h : ¬ ∃ s ∈ events, sameMessageTime s event) : occurrences events event = 0 := by
  unfold occurrences
  rw [List.countP_eq_zero]
  intro s hs
  simp only [decide_eq_true_eq]
  exact fun hsame => h ⟨s, hs, hsame⟩

theorem occurrences_pos (events : List EventMessages) (event : EventMessages)
    (h : ∃ s ∈ events, sameMessageTime s event) : 0 < occurrences events event := by
  unfold occurrences
  rw [List.countP_pos_iff]
  obtain ⟨s, hs, hsame⟩ := h
  exact ⟨s, hs, by simpa using hsame⟩

theorem occurrences_le_one_of_deduplicated (events : List EventMessages)
    (event : EventMessages) (h : deduplicated events) : occurrences events event ≤ 1 := by
  induction events with
  | nil => simp [occurrences]
  | cons a rest ih =>
    unfold deduplicated at h
    rw [List.pairwise_cons] at h
    obtain ⟨ha, hrest⟩ := h
    have ih' := ih hrest
    by_cases hsame : sameMessageTime a event
    · have hzero : occurrences rest event = 0 := by
        apply occurrences_eq_zero
        rintro ⟨s, hs, hse⟩
        apply ha s hs
        unfold sameMessageTime at hsame hse ⊢
        exact ⟨hsame.1.trans hse.1.symm, hsame.2.trans hse.2.symm⟩
      simp only [occurrences, List.countP_cons, hsame, decide_True, if_true] at hzero ⊢
      omega
    · simp only [occurrences, List.countP_cons, hsame, decide_False] at ih' ⊢
      simpa using ih'

/-! ## C8, C9, C10: pod maps -/

theorem UpdatePodEvents_saved (pods : GoMap DeploymenPod) (podName : String)
    (event : EventMessages) (p : DeploymenPod) (h : pods.get podName = some p)
    (hs : hasSavedEvent p.Events event = true) :
    UpdatePodEvents pods podName event = (pods, none) := by
  unfold UpdatePodEvents
  rw [h]
  simp only [hs, if_true]

theorem UpdatePodEvents_fresh (pods : GoMap DeploymenPod) (podName : String)
    (event : EventMessages) (p : DeploymenPod) (h : pods.get podName = some p)
    (hs : hasSavedEvent p.Events event = false) :
    UpdatePodEvents pods podName event
      = (pods.set podName { p with Events := p.Events ++ [event] }, none) := by
  unfold UpdatePodEvents
  rw [h]
  simp only [hs, Bool.false_eq_true, if_false]

theorem NewPodToPods_of_get_none (pods : GoMap DeploymenPod) (pod : Pod)
    (h : pods.get pod.Name = none) :
    NewPodToPods pods pod = (pods.set pod.Name ⟨pod.Phase, []⟩, none) := by
  unfold NewPodToPods
  rw [h]

theorem NewPodToPods_of_get_some (pods : GoMap DeploymenPod) (pod : Pod) (q : DeploymenPod)
    (h : pods.get pod.Name = some q) :
    NewPodToPods pods pod = (pods, some "Pod already exists in pod list") := by
  unfold NewPodToPods
  rw [h]

theorem UpdatePodEvents_of_get_none (pods : GoMap DeploymenPod) (podName : String)
    (event : EventMessages) (h : pods.get podName = none) :
    UpdatePodEvents pods podName event = (pods, some "Pod not exists in pod list") := by
  unfold UpdatePodEvents
  rw [h]

theorem UpdatePodEvents_twice (pods : GoMap DeploymenPod) (podName : String)
    (event : EventMessages) :
    UpdatePodEvents (UpdatePodEvents pods podName event).1 podName event
      = UpdatePodEvents pods podName event := by
  cases hget : pods.get podName with
  | none =>
    rw [UpdatePodEvents_of_get_none _ _ _ hget]
    exact UpdatePodEvents_of_get_none _ _ _ hget
  | some p =>
    cases hs : hasSavedEvent p.Events event with
    | true =>
      rw [UpdatePodEvents_saved _ _ _ _ hget hs]
      exact UpdatePodEvents_saved _ _ _ _ hget hs
    | false =>
      rw [UpdatePodEvents_fresh _ _ _ _ hget hs]
      apply UpdatePodEvents_saved _ _ _ _ (GoMap.get_set_self _ _ _)
      rw [hasSavedEvent_iff]
      exact ⟨event, by simp, rfl, rfl⟩

theorem PodCall.run_deduplicated (pods : GoMap DeploymenPod) (c : PodCall)
    (h : ∀ e ∈ pods, deduplicated e.2.Events) : ∀ e ∈ c.run pods, deduplicated e.2.Events := by
  intro e he
  cases c with
  | newPod pod =>
    simp only [PodCall.run, NewPodToPods] at he
    cases hget : pods.get pod.Name with
    | some q =>
      rw [hget] at he
      exact h e he
    | none =>
      rw [hget] at he
      rcases GoMap.mem_set _ _ _ _ he with h1 | h1
      · exact h e h1
      · rw [h1]
        exact List.Pairwise.nil
  | updateEvents podName event =>
    simp only [PodCall.run] at he
    cases hget : pods.get podName with
    | none =>
      rw [UpdatePodEvents_of_get_none _ _ _ hget] at he
      exact h e he
    | some q =>
      cases hs : hasSavedEvent q.Events event with
      | true =>
        rw [UpdatePodEvents_saved _ _ _ _ hget hs] at he
        exact h e he
      | false =>
        rw [UpdatePodEvents_fresh _ _ _ _ hget hs] at he
        rcases GoMap.mem_set _ _ _ _ he with h1 | h1
        · exact h e h1
        · rw [h1]
          have hq := h _ (GoMap.mem_of_get _ _ _ hget)
          unfold deduplicated at hq ⊢
          rw [List.pairwise_append]
          refine ⟨hq, List.pairwise_singleton _ _, ?_⟩
          intro a ha b hb hsame
          rw [List.mem_singleton] at hb
          subst hb
          have := (hasSavedEvent_iff _ _).2 ⟨a, ha, hsame⟩
          rw [hs] at this
          exact Bool.false_ne_true this
  | updateStatus pod status =>
    simp only [PodCall.run, UpdatePodStatus] at he
    cases hget : pods.get pod.Name with
    | none =>
      rw [hget] at he
      exact h e he
    | some q =>
      rw [hget] at he
      rcases GoMap.mem_set _ _ _ _ he with h1 | h1
      · exact h e h1
      · rw [h1]
        have hq := h _ (GoMap.mem_of_get pods pod.Name q hget)
        exact hq

theorem foldl_run_deduplicated (calls : List PodCall) (pods : GoMap DeploymenPod)
    (h : ∀ e ∈ pods, deduplicated e.2.Events) :
    ∀ e ∈ calls.foldl PodCall.run pods, deduplicated e.2.Events := by
  induction calls generalizing pods with
  | nil => exact h
  | cons c rest ih => exact ih _ (PodCall.run_deduplicated pods c h)

/-- C8: for every pod map reached from the empty map by any sequence of `NewPodToPods`,
`UpdatePodEvents` and `UpdatePodStatus` calls, no pod's event sequence contains two events
with the same `(Message, Time)` pair. -/
theorem C8_pod_events_deduplicated (calls : List PodCall) (podName : String)
    (p : DeploymenPod) (h : (podsAfter calls).get podName = some p) :
    deduplicated p.Events :=
  foldl_run_deduplicated calls [] (by simp) _ (GoMap.mem_of_get _ _ _ h)

/-- C8 (witness): scenario 5; the pod ends with the single event. -/
theorem C8_pod_events_deduplicated_witness :
    (podsAfter scenario5).get "p" = some ⟨"Pending", [eventX]⟩ ∧ deduplicated [eventX] :=
  ⟨by decide, C8_pod_events_deduplicated scenario5 "p" ⟨"Pending", [eventX]⟩ (by decide)⟩

/-- C9 (as stated, refuted): in `twicePod` the pod `p` already holds the event `X` at time 100
twice; appending that event twice succeeds, leaves the map as it is, and the sequence holds
two occurrences, not exactly one. -/
theorem C9_counterexample :
    UpdatePodEvents (UpdatePodEvents twicePod "p" eventX).1 "p" eventX = (twicePod, none)
      ∧ (twicePod.get "p").map (fun p => occurrences p.Events eventX) = some 2 := by
  decide

/-- C9 (amended): for every pod map, pod name and event, `UpdatePodEvents` returns an error if
and only if the name is not in the map, and then leaves the map unchanged; when the name is
present it succeeds, and the pod's event sequence becomes the old sequence followed by the
event if no stored event has the same `(Message, Time)`, and the map is left unchanged
otherwise (other pods and the number of entries are never changed), so that appending the
same event twice yields the same state and result as appending it once, with exactly one
event of that `(Message, Time)` in the sequence whenever the stored sequence held at most one
before, in particular whenever it was free of duplicates. -/
theorem C9_UpdatePodEvents_contract (pods : GoMap DeploymenPod) (podName : String)
    (event : EventMessages) :
    ((UpdatePodEvents pods podName event).2 ≠ none ↔ pods.get podName = none)
      ∧ ((UpdatePodEvents pods podName event).2 ≠ none
          → (UpdatePodEvents pods podName event).1 = pods)
      ∧ (∀ p, pods.get podName = some p →
          (UpdatePodEvents pods podName event).2 = none
          ∧ ((¬ ∃ s ∈ p.Events, sameMessageTime s event)
              → (UpdatePodEvents pods podName event).1.get podName
                = some { p with Events := p.Events ++ [event] })
          ∧ ((∃ s ∈ p.Events, sameMessageTime s event)
              → (UpdatePodEvents pods podName event).1 = pods)
          ∧ (∀ k, k ≠ podName → (UpdatePodEvents pods podName event).1.get k = pods.get k)
          ∧ (UpdatePodEvents pods podName event).1.length = pods.length)
      ∧ UpdatePodEvents (UpdatePodEvents pods podName event).1 podName event
        = UpdatePodEvents pods podName event
      ∧ (∀ p p2, pods.get podName = some p
          → (UpdatePodEvents (UpdatePodEvents pods podName event).1 podName event).1.get podName
            = some p2
          → (occurrences p.Events event ≤ 1 → occurrences p2.Events event = 1)
            ∧ (deduplicated p.Events → occurrences p2.Events event = 1)) := by
  refine ⟨?_, ?_, ?_, UpdatePodEvents_twice pods podName event, ?_⟩
  · cases hget : pods.get podName with
    | none => rw [UpdatePodEvents_of_get_none _ _ _ hget]; simp
    | some p =>
      cases hs : hasSavedEvent p.Events event with
      | true => rw [UpdatePodEvents_saved _ _ _ _ hget hs]; simp
      | false => rw [UpdatePodEvents_fresh _ _ _ _ hget hs]; simp
  · cases hget : pods.get podName with
    | none => rw [UpdatePodEvents_of_get_none _ _ _ hget]; simp
    | some p =>
      cases hs : hasSavedEvent p.Events event with
      | true => rw [UpdatePodEvents_saved _ _ _ _ hget hs]; simp
      | false => rw [UpdatePodEvents_fresh _ _ _ _ hget hs]; simp
  · intro p hget
    cases hs : hasSavedEvent p.Events event with
    | true =>
      have hex := (hasSavedEvent_iff _ _).1 hs
      rw [UpdatePodEvents_saved _ _ _ _ hget hs]
      exact ⟨rfl, fun hn => absurd hex hn, fun _ => rfl, fun _ _ => rfl, rfl⟩
    | false =>
      have hnex : ¬ ∃ s ∈ p.Events, sameMessageTime s event := by
        intro hex
        have := (hasSavedEvent_iff _ _).2 hex
        rw [hs] at this
        exact Bool.false_ne_true this
      rw [UpdatePodEvents_fresh _ _ _ _ hget hs]
      exact ⟨rfl, fun _ => GoMap.get_set_self _ _ _, fun hex => absurd hex hnex,
        fun k hk => GoMap.get_set_other _ _ _ _ hk, GoMap.length_set_of_get_some _ _ _ _ hget⟩
  · intro p p2 hget hget2
    rw [UpdatePodEvents_twice] at hget2
    have key : occurrences p.Events event ≤ 1 → occurrences p2.Events event = 1 := by
      intro hle
      cases hs : hasSavedEvent p.Events event with
      | true =>
        rw [UpdatePodEvents_saved _ _ _ _ hget hs] at hget2
        have hpp : p = p2 := Option.some.inj (hget.symm.trans hget2)
        subst hpp
        have := occurrences_pos _ _ ((hasSavedEvent_iff _ _).1 hs)
        omega
      | false =>
        rw [UpdatePodEvents_fresh _ _ _ _ hget hs] at hget2
        have hpp := Option.some.inj ((GoMap.get_set_self _ _ _).symm.trans hget2)
        subst hpp
        have hz := occurrences_eq_zero p.Events event (by
          intro hex
          have := (hasSavedEvent_iff _ _).2 hex
          rw [hs] at this
          exact Bool.false_ne_true this)
        simp only [occurrences_append_self, hz]
    exact ⟨key, fun hd => key (occurrences_le_one_of_deduplicated _ _ hd)⟩

/-- C10: for every pod map and pod, `NewPodToPods` returns an error if and only if the pod's
name is already a key of the map, and then leaves the map unchanged; otherwise it adds exactly
one entry, under the pod's name, whose phase is the pod's current phase and whose event
sequence is empty, leaving every other entry unchanged. -/
theorem C10_NewPodToPods_contract (pods : GoMap DeploymenPod) (pod : Pod) :
    ((NewPodToPods pods pod).2 ≠ none ↔ pods.get pod.Name ≠ none)
      ∧ ((NewPodToPods pods pod).2 ≠ none → (NewPodToPods pods pod).1 = pods)
      ∧ ((NewPodToPods pods pod).2 = none →
          (NewPodToPods pods pod).1 = pods ++ [(pod.Name, ⟨pod.Phase, []⟩)]
          ∧ (NewPodToPods pods pod).1.length = pods.length + 1
          ∧ (NewPodToPods pods pod).1.get pod.Name = some ⟨pod.Phase, []⟩
          ∧ ∀ k, k ≠ pod.Name → (NewPodToPods pods pod).1.get k = pods.get k) := by
  cases hget : pods.get pod.Name with
  | some q =>
    rw [NewPodToPods_of_get_some _ _ _ hget]
    simp
  | none =>
    rw [NewPodToPods_of_get_none _ _ hget]
    refine ⟨by simp, by simp, fun _ => ⟨GoMap.set_of_get_none _ _ _ hget, ?_,
      GoMap.get_set_self _ _ _, fun k hk => GoMap.get_set_other _ _ _ _ hk⟩⟩
    show (pods.set pod.Name ⟨pod.Phase, []⟩).length = pods.length + 1
    rw [GoMap.set_of_get_none _ _ _ hget]
    simp

/-! ## What the save cycle computes -/

theorem saveRow_eq (storage : Storage) (survives : AppendSurvives) (key : String)
    (data : RegistryRow) (st : SaveState) :
    saveRow storage survives key data st
      = (savedRow storage data,
          { deleteRows :=
              st.deleteRows ++ (if deletesKey storage survives key data then [key] else [])
            storageCalls := st.storageCalls ++ [storageCallOf data]
            reporter := { st.reporter with
              DeploymentFinished :=
                st.reporter.DeploymentFinished ++ finishedNotifications storage data } }) := by
  obtain ⟨dels, calls, rep⟩ := st
  obtain ⟨started, deleted, finished⟩ := rep
  unfold saveRow saveFinish appendDeleteRow savedRow deletesKey queuesDeletion storageCallOf
    finishedNotifications finishedNotification createFails GetURI
  by_cases hsv : survives key = true
  ·
    by_cases hid : data.id = 0
    · by_cases herr : (storage.CreateApply data data.status).2 = none
      · by_cases hfin : data.finish = true
        · by_cases hdel : data.status = DeploymentStatusDeleted
          · have herr2 := herr
            rw [hdel] at herr2
            simp [hid, herr2, hfin, hdel, hsv]
          · simp [hid, herr, hfin, hdel, hsv]
        · simp [hid, herr, hfin, hsv]
      · simp [hid, herr, hsv]
    · by_cases hfin : data.finish = true
      · by_cases hdel : data.status = DeploymentStatusDeleted
        · simp [hid, hfin, hdel, hsv]
        · simp [hid, hfin, hdel, hsv]
      · simp [hid, hfin, hsv]
  ·
    by_cases hid : data.id = 0
    · by_cases herr : (storage.CreateApply data data.status).2 = none
      · by_cases hfin : data.finish = true
        · by_cases hdel : data.status = DeploymentStatusDeleted
          · have herr2 := herr
            rw [hdel] at herr2
            simp [hid, herr2, hfin, hdel, hsv]
          · simp [hid, herr, hfin, hdel, hsv]
        · simp [hid, herr, hfin, hsv]
      · simp [hid, herr, hsv]
    · by_cases hfin : data.finish = true
      · by_cases hdel : data.status = DeploymentStatusDeleted
        · simp [hid, hfin, hdel, hsv]
        · simp [hid, hfin, hdel, hsv]
      · simp [hid, hfin, hsv]

theorem saveLoop_eq (storage : Storage) (survives : AppendSurvives) (m : GoMap RegistryRow)
    (st : SaveState) :
    saveLoop storage survives m st
      = (m.map (fun e => (e.1, savedRow storage e.2)),
          { deleteRows :=
              st.deleteRows
                ++ (m.filter fun e => decide (deletesKey storage survives e.1 e.2)).map Prod.fst
            storageCalls := st.storageCalls ++ m.map (fun e => storageCallOf e.2)
            reporter := { st.reporter with
              DeploymentFinished :=
                st.reporter.DeploymentFinished
                  ++ m.flatMap (fun e => finishedNotifications storage e.2) } }) := by
  induction m generalizing st with
  | nil => simp [saveLoop]
  | cons e rest ih =>
    obtain ⟨key, data⟩ := e
    simp only [saveLoop, saveRow_eq, ih]
    by_cases hq : deletesKey storage survives key data
    · simp [hq, List.filter_cons]
    · simp [hq, List.filter_cons]

theorem GoMap.get_map_snd {V W : Type} (m : GoMap V) (f : V → W) (k : String) :
    GoMap.get (m.map fun e => (e.1, f e.2)) k = (m.get k).map f := by
  induction m with
  | nil => rfl
  | cons e rest ih =>
    obtain ⟨k', v⟩ := e
    by_cases h : k' = k
    · simp [GoMap.get, h]
    · simp only [List.map_cons, GoMap.get, h, if_false]
      exact ih

theorem GoMap.get_delete {V : Type} (m : GoMap V) (k k2 : String) :
    (m.delete k).get k2 = if k2 = k then none else m.get k2 := by
  induction m with
  | nil => simp [GoMap.delete, GoMap.get]
  | cons e rest ih =>
    obtain ⟨k', v⟩ := e
    by_cases h : k' = k
    · subst h
      by_cases h2 : k2 = k'
      · subst h2
        simp [GoMap.delete, ih]
      · have h3 : ¬ k' = k2 := fun h => h2 h.symm
        simp [GoMap.delete, GoMap.get, ih, h2, h3]
    · by_cases h2 : k' = k2
      · subst h2
        simp [GoMap.delete, GoMap.get, h]
      · simp [GoMap.delete, GoMap.get, h, h2, ih]

theorem get_deleteLoop (keys : List String) (m : GoMap RegistryRow) (k : String) :
    (deleteLoop keys m).get k = if k ∈ keys then none else m.get k := by
  induction keys generalizing m with
  | nil => simp [deleteLoop]
  | cons key rest ih =>
    simp only [deleteLoop, ih, GoMap.get_delete, List.mem_cons]
    by_cases h1 : k ∈ rest
    · simp [h1]
    · by_cases h2 : k = key
      · simp [h1, h2]
      · simp [h1, h2]

theorem GoMap.get_of_mem {V : Type} (m : GoMap V) (k : String) (v : V)
    (hwf : m.wellFormed) (h : (k, v) ∈ m) : m.get k = some v := by
  induction m with
  | nil => simp at h
  | cons e rest ih =>
    obtain ⟨k', v'⟩ := e
    unfold GoMap.wellFormed at hwf
    simp only [List.map_cons, List.nodup_cons, List.mem_map, not_exists, not_and] at hwf
    obtain ⟨hnot, hrest⟩ := hwf
    rcases List.mem_cons.1 h with h1 | h1
    · simp only [Prod.mk.injEq] at h1
      simp [GoMap.get, h1.1, h1.2]
    · have hne : ¬ k' = k := fun heq => hnot (k, v) h1 heq.symm
      simp only [GoMap.get, hne, if_false]
      exact ih hrest h1

/-- The entry under a key after one `save`: gone when its goroutine appended the key to
`deleteRows` and the append survived, otherwise the row with the stored identifier. -/
theorem save_get (dr : RegistryManager) (survives : AppendSurvives) (k : String)
    (hwf : dr.registryData.wellFormed) :
    (save dr survives).registryData.get k
      = match dr.registryData.get k with
        | none => none
        | some r =>
          if deletesKey dr.storage survives k r then none else some (savedRow dr.storage r) := by
  unfold save
  simp only [saveLoop_eq, get_deleteLoop, GoMap.get_map_snd, List.nil_append]
  cases hget : dr.registryData.get k with
  | none =>
    simp
  | some r =>
    have hmem := GoMap.mem_of_get _ _ _ hget
    by_cases hq : deletesKey dr.storage survives k r
    · have hin : k ∈ (dr.registryData.filter
          fun e => decide (deletesKey dr.storage survives e.1 e.2)).map Prod.fst := by
        rw [List.mem_map]
        exact ⟨(k, r), List.mem_filter.2 ⟨hmem, by simpa using hq⟩, rfl⟩
      simp [hin, hq]
    · have hnin : ¬ k ∈ (dr.registryData.filter
          fun e => decide (deletesKey dr.storage survives e.1 e.2)).map Prod.fst := by
        rw [List.mem_map]
        rintro ⟨⟨k', r'⟩, hf, hk⟩
        obtain ⟨hm, hq'⟩ := List.mem_filter.1 hf
        simp only at hk
        subst hk
        have := GoMap.get_of_mem _ _ _ hwf hm
        rw [hget, Option.some.injEq] at this
        subst this
        exact hq (by simpa using hq')
      simp [hnin, hq]

theorem GoMap.keys_delete {V : Type} (m : GoMap V) (k : String) :
    (m.delete k).map Prod.fst = (m.map Prod.fst).filter fun x => decide (x ≠ k) := by
  induction m with
  | nil => rfl
  | cons e rest ih =>
    obtain ⟨k', v⟩ := e
    by_cases h : k' = k
    · simp [GoMap.delete, h, ih]
    · simp [GoMap.delete, h, ih, List.filter_cons]

theorem GoMap.wellFormed_delete {V : Type} (m : GoMap V) (k : String) (hwf : m.wellFormed) :
    (m.delete k).wellFormed := by
  unfold GoMap.wellFormed at hwf ⊢
  rw [GoMap.keys_delete]
  exact hwf.filter _

/-! ## C11, C12, C13: one save cycle -/

/-- C11 (the code at the failing input): in `mixedManager` the row under `k-bad` has `id = 0`
and `CreateApply` returns an error for it.  Its goroutine appends `k-bad` to the shared
`deleteRows` without a lock; when a concurrent append overwrites that one, the key is not
deleted and the row is still in the map after the save cycle.  When every append survives,
the row is gone. -/
theorem C11_failed_create_row_kept_when_append_lost :
    mixedManager.registryData.get "k-bad" = some badRow
      ∧ badRow.id = 0
      ∧ (mixedManager.storage.CreateApply badRow badRow.status).2 ≠ none
      ∧ (save mixedManager (lostAppend "k-bad")).registryData.get "k-bad" = some badRow
      ∧ (save mixedManager allSurvive).registryData.get "k-bad" = none := by
  decide

/-- C12 (the code at the failing input): in `mixedManager` the row under `k-done` has
`finish = true` at the start of the save cycle.  Its goroutine appends `k-done` to the shared
`deleteRows` without a lock; when a concurrent append overwrites that one, the key is not
deleted and the finished row, stored under id 7, is still in the map after the save cycle.
When every append survives, the row is gone. -/
theorem C12_finished_row_kept_when_append_lost :
    mixedManager.registryData.get "k-done" = some happyRowFinished
      ∧ happyRowFinished.finish = true
      ∧ (save mixedManager (lostAppend "k-done")).registryData.get "k-done"
        = some { happyRowFinished with id := 7 }
      ∧ (save mixedManager allSurvive).registryData.get "k-done" = none := by
  decide

/-- C13 (as stated, refuted): the only row of the registry has `finish = true`, status
Successful and `id = 0`, and `CreateApply` fails for it; the goroutine returns after queueing
the key and no `DeploymentFinished` notification is emitted. -/
theorem C13_counterexample :
    badRowFinished.finish = true
      ∧ badRowFinished.status ≠ DeploymentStatusDeleted
      ∧ (mkManager [("k-bad", badRowFinished)]).reporter.DeploymentFinished = []
      ∧ (save (mkManager [("k-bad", badRowFinished)]) allSurvive).reporter.DeploymentFinished
        = [] := by
  decide

/-- C13 (amended): in one save cycle the `DeploymentFinished` channel receives, for every row
in the map in turn, exactly one notification carrying the row's `report_to`, `deploy_by`,
application name, URI and status if the row has `finish = true`, its status is not Deleted and
its first `CreateApply` did not fail, and no notification if the row has `finish = false` or
status Deleted or its first `CreateApply` failed; the other channels receive nothing. -/
theorem C13_save_finished_notifications (dr : RegistryManager) (survives : AppendSurvives) :
    (save dr survives).reporter.DeploymentFinished
        = dr.reporter.DeploymentFinished
          ++ dr.registryData.flatMap (fun e =>
              if e.2.finish = true ∧ e.2.status ≠ DeploymentStatusDeleted
                  ∧ ¬ (e.2.id = 0 ∧ (dr.storage.CreateApply e.2 e.2.status).2 ≠ none) then
                [{ To := e.2.DBSchema.ReportTo, DeployBy := e.2.DBSchema.DeployBy,
                   Name := e.2.DBSchema.Application, URI := GetURI e.2, Status := e.2.status }]
              else [])
      ∧ (save dr survives).reporter.DeploymentStarted = dr.reporter.DeploymentStarted
      ∧ (save dr survives).reporter.DeploymentDeleted = dr.reporter.DeploymentDeleted := by
  unfold save
  rw [saveLoop_eq]
  exact ⟨rfl, rfl, rfl⟩

/-! ## C14, C15, C16: creation and lookup -/

/-- C14 (the code at the failing input): `web-api` is applied in namespace `prod`, then `web`
in namespace `api-prod`.  The sequence contains one call with identity `(web-api, prod)`, yet
the map holds under `generateID(web-api, prod)` the row of `(web, api-prod)`, not the row that
call returned, and `Get(web-api, prod)` returns that other row. -/
theorem C14_last_row_lost_on_key_collision :
    Get (newApplications noMetadata emptyManager [callWebApiProd, callWebApiProd2])
        "web-api" "prod"
      = some (NewApplication noMetadata (NewApplication noMetadata emptyManager callWebApiProd).1
          callWebApiProd2).2
      ∧ (Get (newApplications noMetadata emptyManager [callWebApiProd, callWebApiProd2])
          "web-api" "prod").map (fun r => (r.DBSchema.Application, r.DBSchema.Namespace))
        = some ("web", "api-prod")
      ∧ Get (newApplications noMetadata emptyManager [callWebApiProd, callWebApiProd2])
          "web-api" "prod"
        ≠ some (NewApplication noMetadata emptyManager callWebApiProd).2 := by
  decide

/-- C15: `NewApplication` sends exactly one record on `DeploymentStarted` and none on any
other channel when the status is Running, exactly one on `DeploymentDeleted` and none on any
other when it is Deleted, and nothing for every other status; in all cases the returned row
has `id = 0`, `finish = false`, the given status, description Running and empty deployment and
daemonset maps. -/
theorem C15_NewApplication_notifies (md : MetadataHelpers) (dr : RegistryManager)
    (c : NewApplicationCall) :
    (c.status = DeploymentStatusRunning →
        (NewApplication md dr c).1.reporter.DeploymentStarted
            = dr.reporter.DeploymentStarted
              ++ [{ To := (NewApplication md dr c).2.DBSchema.ReportTo,
                    DeployBy := (NewApplication md dr c).2.DBSchema.DeployBy,
                    Name := c.appName, URI := GetURI (NewApplication md dr c).2,
                    Status := c.status }]
          ∧ (NewApplication md dr c).1.reporter.DeploymentDeleted = dr.reporter.DeploymentDeleted
          ∧ (NewApplication md dr c).1.reporter.DeploymentFinished
            = dr.reporter.DeploymentFinished)
      ∧ (c.status = DeploymentStatusDeleted →
        (NewApplication md dr c).1.reporter.DeploymentDeleted
            = dr.reporter.DeploymentDeleted
              ++ [{ To := (NewApplication md dr c).2.DBSchema.ReportTo,
                    DeployBy := (NewApplication md dr c).2.DBSchema.DeployBy,
                    Name := c.appName, URI := GetURI (NewApplication md dr c).2,
                    Status := c.status }]
          ∧ (NewApplication md dr c).1.reporter.DeploymentStarted = dr.reporter.DeploymentStarted
          ∧ (NewApplication md dr c).1.reporter.DeploymentFinished
            = dr.reporter.DeploymentFinished)
      ∧ (c.status ≠ DeploymentStatusRunning → c.status ≠ DeploymentStatusDeleted →
        (NewApplication md dr c).1.reporter = dr.reporter)
      ∧ (NewApplication md dr c).2.id = 0
      ∧ (NewApplication md dr c).2.finish = false
      ∧ (NewApplication md dr c).2.status = c.status
      ∧ (NewApplication md dr c).2.DBSchema.DeploymentDescription
        = DeploymentStatusDescriptionRunning
      ∧ (NewApplication md dr c).2.DBSchema.Resources.Deployments = []
      ∧ (NewApplication md dr c).2.DBSchema.Resources.Daemonsets = [] := by
  unfold NewApplication
  cases hs : c.status <;> simp

/-- C16 (the code at the failing input): the pairs `(web-api, prod)` and `(web, api-prod)`
differ and `generateID` gives them the same key; so after `web-api` is applied in `prod`,
applying `web` in `api-prod` changes what `Get(web-api, prod)` returns. -/
theorem C16_generateID_collision :
    ("web-api", "prod") ≠ ("web", "api-prod")
      ∧ generateID "web-api" "prod" = generateID "web" "api-prod"
      ∧ Get (NewApplication noMetadata
            (NewApplication noMetadata emptyManager callWebApiProd).1 callWebApiProd2).1
          "web-api" "prod"
        ≠ Get (NewApplication noMetadata emptyManager callWebApiProd).1 "web-api" "prod" := by
  decide

/-! ## C17: terminal transitions -/

theorem isFinishTick_terminal (d : Detector) (elapsedDep elapsedDs : Int)
    (h : d.row.finish = true → terminalStatus d.row.status) :
    (isFinishTick d elapsedDep elapsedDs).row.finish = true
      → terminalStatus (isFinishTick d elapsedDep elapsedDs).row.status := by
  unfold isFinishTick
  by_cases hfin : d.row.finish = true
  · simp only [hfin, if_true]
    exact fun _ => h hfin
  · simp only [hfin, Bool.false_eq_true, if_false]
    split
    · intro _
      exact Or.inr (Or.inl rfl)
    · split
      · intro _
        exact Or.inl rfl
      · intro hf
        exact absurd hf hfin

theorem isFinishLoop_terminal (clock : Nat → Int × Int) (fuel n : Nat) (d : Detector)
    (h : d.row.finish = true → terminalStatus d.row.status) :
    (isFinishLoop clock fuel n d).row.finish = true
      → terminalStatus (isFinishLoop clock fuel n d).row.status := by
  induction fuel generalizing n d with
  | zero => exact h
  | succ fuel ih =>
    unfold isFinishLoop
    split
    · exact h
    · split
      · exact h
      · exact ih _ _ (isFinishTick_terminal d _ _ h)

/-- C17: for every row, status `s` and description `m`, `Stop(s, m)` leaves the row with
`finish = true`, `status = s` and snapshot description `m`, and changes nothing else: id,
collect window, application, cluster, namespace, creation timestamp, report_to, deploy_by,
the tracked resources and the context are unchanged; consequently every terminal transition
made by the detector, in one tick or in a whole run, ends with `finish = true` and status in
{Successful, Failed, Deleted}. -/
theorem C17_Stop_frame_and_terminal (wbr : RegistryRow) (s : DeploymentStatus)
    (m : DeploymentStatusDescription) (clock : Nat → Int × Int) (fuel : Nat)
    (elapsedDep elapsedDs : Int) :
    ((Stop wbr s m).finish = true ∧ (Stop wbr s m).status = s
        ∧ (Stop wbr s m).DBSchema.DeploymentDescription = m)
      ∧ ((Stop wbr s m).id = wbr.id
        ∧ (Stop wbr s m).collectDataAfterDeploymentFinish = wbr.collectDataAfterDeploymentFinish
        ∧ (Stop wbr s m).DBSchema.Application = wbr.DBSchema.Application
        ∧ (Stop wbr s m).DBSchema.Cluster = wbr.DBSchema.Cluster
        ∧ (Stop wbr s m).DBSchema.Namespace = wbr.DBSchema.Namespace
        ∧ (Stop wbr s m).DBSchema.CreationTimestamp = wbr.DBSchema.CreationTimestamp
        ∧ (Stop wbr s m).DBSchema.ReportTo = wbr.DBSchema.ReportTo
        ∧ (Stop wbr s m).DBSchema.DeployBy = wbr.DBSchema.DeployBy
        ∧ (Stop wbr s m).DBSchema.Resources = wbr.DBSchema.Resources
        ∧ (Stop wbr s m).cancelled = wbr.cancelled)
      ∧ (wbr.finish = false →
          (isFinishTick ⟨wbr, false, 0⟩ elapsedDep elapsedDs).row.finish = true →
          terminalStatus (isFinishTick ⟨wbr, false, 0⟩ elapsedDep elapsedDs).row.status)
      ∧ (wbr.finish = false → (isFinish clock fuel wbr).row.finish = true →
          terminalStatus (isFinish clock fuel wbr).row.status) := by
  have hvac : wbr.finish = false → wbr.finish = true → terminalStatus wbr.status := by
    intro h1 h2
    rw [h1] at h2
    exact absurd h2 Bool.false_ne_true
  refine ⟨⟨rfl, rfl, rfl⟩, ⟨rfl, rfl, rfl, rfl, rfl, rfl, rfl, rfl, rfl, rfl⟩, ?_, ?_⟩
  · intro hfin
    exact isFinishTick_terminal ⟨wbr, false, 0⟩ _ _ (hvac hfin)
  · intro hfin
    unfold isFinish
    split
    · intro _
      exact Or.inr (Or.inr rfl)
    · exact isFinishLoop_terminal clock fuel 0 ⟨wbr, false, 0⟩ (hvac hfin)

/-- C17 (witness): the detector run on the row of scenario 1 ends Successful, on the row of
scenario 2 Failed and on the row of scenario 3 Deleted, each with `finish = true`. -/
theorem C17_Stop_frame_and_terminal_witness :
    ((isFinish (fun _ => (3, 3)) 2 happyRow).row.finish = true
        ∧ terminalStatus (isFinish (fun _ => (3, 3)) 2 happyRow).row.status)
      ∧ (isFinish (fun _ => (3, 3)) 2 lateRow).row.status = DeploymentStatusFailed
      ∧ (isFinish (fun _ => (3, 3)) 2 deletedRow).row.status = DeploymentStatusDeleted :=
  ⟨⟨by decide,
      (C17_Stop_frame_and_terminal happyRow DeploymentSuccessful
        DeploymentStatusDescriptionSuccessful (fun _ => (3, 3)) 2 3 3).2.2.2
        (by decide) (by decide)⟩,
    by decide, by decide⟩

/-! ## C18, C19: replica-sets -/

theorem UpdateReplicasetEvents_of_get_none (dd : DeploymentData) (name : String)
    (event : EventMessages) (h : dd.Replicaset.get name = none) :
    UpdateReplicasetEvents dd name event = (dd, some "Replicaset not found") := by
  unfold UpdateReplicasetEvents
  rw [h]

theorem UpdateReplicasetEvents_of_get_some (dd : DeploymentData) (name : String)
    (event : EventMessages) (rs : Replicaset) (h : dd.Replicaset.get name = some rs) :
    UpdateReplicasetEvents dd name event
      = ({ dd with
          Replicaset := dd.Replicaset.set name { rs with Events := rs.Events ++ [event] } },
          none) := by
  unfold UpdateReplicasetEvents
  rw [h]

theorem UpdateReplicasetStatus_of_get_none (dd : DeploymentData) (name : String)
    (status : ReplicaSetStatus) (h : dd.Replicaset.get name = none) :
    UpdateReplicasetStatus dd name status = (dd, some "Replicaset not found") := by
  unfold UpdateReplicasetStatus
  rw [h]

theorem UpdateReplicasetStatus_of_get_some (dd : DeploymentData) (name : String)
    (status : ReplicaSetStatus) (rs : Replicaset) (h : dd.Replicaset.get name = some rs) :
    UpdateReplicasetStatus dd name status
      = ({ dd with Replicaset := dd.Replicaset.set name { rs with Status := status } }, none) := by
  unfold UpdateReplicasetStatus
  rw [h]

/-- C18: for every deployment model and replica-set name, `UpdateReplicasetEvents` and
`UpdateReplicasetStatus` each return an error if and only if the name is not in the model's
replica-set map, and a failing call leaves the model unchanged; when the name is present,
`UpdateReplicasetEvents` appends the event at the end of that replica-set's event sequence
and `UpdateReplicasetStatus` overwrites that replica-set's status, each leaving its other
part, every other replica-set and the rest of the model unchanged. -/
theorem C18_UpdateReplicaset_contract (dd : DeploymentData) (name : String)
    (event : EventMessages) (status : ReplicaSetStatus) :
    (((UpdateReplicasetEvents dd name event).2 ≠ none ↔ dd.Replicaset.get name = none)
        ∧ ((UpdateReplicasetStatus dd name status).2 ≠ none ↔ dd.Replicaset.get name = none))
      ∧ (dd.Replicaset.get name = none →
          (UpdateReplicasetEvents dd name event).1 = dd
            ∧ (UpdateReplicasetStatus dd name status).1 = dd)
      ∧ (∀ rs, dd.Replicaset.get name = some rs →
          ((UpdateReplicasetEvents dd name event).1.Replicaset.get name
              = some { Events := rs.Events ++ [event], Status := rs.Status }
            ∧ (∀ k, k ≠ name →
                (UpdateReplicasetEvents dd name event).1.Replicaset.get k = dd.Replicaset.get k)
            ∧ { (UpdateReplicasetEvents dd name event).1 with Replicaset := dd.Replicaset } = dd)
          ∧ ((UpdateReplicasetStatus dd name status).1.Replicaset.get name
              = some { Events := rs.Events, Status := status }
            ∧ (∀ k, k ≠ name →
                (UpdateReplicasetStatus dd name status).1.Replicaset.get k = dd.Replicaset.get k)
            ∧ { (UpdateReplicasetStatus dd name status).1 with Replicaset := dd.Replicaset }
              = dd)) := by
  cases hget : dd.Replicaset.get name with
  | none =>
    rw [UpdateReplicasetEvents_of_get_none _ _ _ hget,
      UpdateReplicasetStatus_of_get_none _ _ _ hget]
    simp
  | some rs =>
    rw [UpdateReplicasetEvents_of_get_some _ _ _ _ hget,
      UpdateReplicasetStatus_of_get_some _ _ _ _ hget]
    refine ⟨by simp, by simp, ?_⟩
    intro rs2 hrs
    rw [Option.some.injEq] at hrs
    subst hrs
    exact ⟨⟨GoMap.get_set_self _ _ _, fun k hk => GoMap.get_set_other _ _ _ _ hk, rfl⟩,
      ⟨GoMap.get_set_self _ _ _, fun k hk => GoMap.get_set_other _ _ _ _ hk, rfl⟩⟩

theorem InitReplicaset_of_get_some (dd : DeploymentData) (name : String) (rs : Replicaset)
    (h : dd.Replicaset.get name = some rs) : InitReplicaset dd name = dd := by
  unfold InitReplicaset
  rw [h]

theorem InitReplicaset_of_get_none (dd : DeploymentData) (name : String)
    (h : dd.Replicaset.get name = none) :
    InitReplicaset dd name
      = { dd with
          Replicaset := dd.Replicaset.set name { Events := [], Status := ⟨0, 0, 0, 0, 0⟩ } } := by
  unfold InitReplicaset
  rw [h]

/-- C19: `InitReplicaset` is idempotent and never overwrites: for every deployment model and
name, calling `InitReplicaset(name)` twice gives the same model as calling it once; if the
name is already present the model is unchanged (its recorded events and status are kept); if
absent, exactly one entry with an empty event sequence and zero status is added and all other
entries and the rest of the model are unchanged. -/
theorem C19_InitReplicaset_idempotent (dd : DeploymentData) (name : String) :
    InitReplicaset (InitReplicaset dd name) name = InitReplicaset dd name
      ∧ (dd.Replicaset.get name ≠ none → InitReplicaset dd name = dd)
      ∧ (dd.Replicaset.get name = none →
          (InitReplicaset dd name).Replicaset
              = dd.Replicaset ++ [(name, { Events := [], Status := ⟨0, 0, 0, 0, 0⟩ })]
            ∧ (InitReplicaset dd name).Replicaset.length = dd.Replicaset.length + 1
            ∧ (InitReplicaset dd name).Replicaset.get name
              = some { Events := [], Status := ⟨0, 0, 0, 0, 0⟩ }
            ∧ (∀ k, k ≠ name → (InitReplicaset dd name).Replicaset.get k = dd.Replicaset.get k)
            ∧ { InitReplicaset dd name with Replicaset := dd.Replicaset } = dd) := by
  cases hget : dd.Replicaset.get name with
  | some rs =>
    rw [InitReplicaset_of_get_some _ _ _ hget]
    exact ⟨InitReplicaset_of_get_some _ _ _ hget, fun _ => rfl, fun h => by simp at h⟩
  | none =>
    rw [InitReplicaset_of_get_none _ _ hget]
    refine ⟨?_, fun h => absurd rfl h, fun _ => ⟨?_, ?_, ?_, ?_, rfl⟩⟩
    · exact InitReplicaset_of_get_some _ _ _ (GoMap.get_set_self _ _ _)
    · exact GoMap.set_of_get_none _ _ _ hget
    · show (dd.Replicaset.set name _).length = _
      rw [GoMap.set_of_get_none _ _ _ hget]
      simp
    · exact GoMap.get_set_self _ _ _
    · exact fun k hk => GoMap.get_set_other _ _ _ _ hk

/-! ## C20: the identifier of a row -/

theorem deleteLoop_wellFormed (keys : List String) (m : GoMap RegistryRow)
    (hwf : m.wellFormed) : (deleteLoop keys m).wellFormed := by
  induction keys generalizing m with
  | nil => exact hwf
  | cons key rest ih => exact ih _ (GoMap.wellFormed_delete _ _ hwf)

theorem save_wellFormed (dr : RegistryManager) (survives : AppendSurvives)
    (hwf : dr.registryData.wellFormed) : (save dr survives).registryData.wellFormed := by
  unfold save
  rw [saveLoop_eq]
  apply deleteLoop_wellFormed
  unfold GoMap.wellFormed at hwf ⊢
  simpa [List.map_map, Function.comp_def] using hwf

theorem save_storage (dr : RegistryManager) (survives : AppendSurvives) :
    (save dr survives).storage = dr.storage := by
  unfold save
  rw [saveLoop_eq]

theorem savedRow_of_pos (storage : Storage) (r : RegistryRow) (h : 0 < r.id) :
    savedRow storage r = r := by
  unfold savedRow
  have hne : ¬ r.id = 0 := by omega
  simp [hne]

theorem foldl_save_get_none (scheds : List AppendSurvives) (dr : RegistryManager) (k : String)
    (hwf : dr.registryData.wellFormed) (hget : dr.registryData.get k = none) :
    (scheds.foldl save dr).registryData.get k = none := by
  induction scheds generalizing dr with
  | nil => exact hget
  | cons survives rest ih =>
    apply ih (save dr survives) (save_wellFormed dr survives hwf)
    rw [save_get dr survives k hwf, hget]

theorem foldl_save_get_of_pos (scheds : List AppendSurvives) (dr : RegistryManager) (k : String)
    (r r2 : RegistryRow) (hwf : dr.registryData.wellFormed)
    (hget : dr.registryData.get k = some r) (hid : 0 < r.id)
    (h2 : (scheds.foldl save dr).registryData.get k = some r2) : r2 = r := by
  induction scheds generalizing dr with
  | nil => exact Option.some.inj (h2.symm.trans hget)
  | cons survives rest ih =>
    have hstep : (save dr survives).registryData.get k
        = if deletesKey dr.storage survives k r then none else some (savedRow dr.storage r) := by
      rw [save_get dr survives k hwf, hget]
    by_cases hq : deletesKey dr.storage survives k r
    · rw [if_pos hq] at hstep
      have hnone := foldl_save_get_none rest (save dr survives) k
        (save_wellFormed dr survives hwf) hstep
      have h2' : (rest.foldl save (save dr survives)).registryData.get k = some r2 := h2
      rw [hnone] at h2'
      exact absurd h2' (by simp)
    · rw [if_neg hq, savedRow_of_pos _ _ hid] at hstep
      exact ih (save dr survives) (save_wellFormed dr survives hwf) hstep h2

/-- C20: assuming the storage's `CreateApply` returns a positive id whenever it succeeds.  A
row created by `NewApplication` has `id = 0` and is the row in the map; a row with `id = 0`
is persisted with `CreateApply`, keeps `id = 0` when that fails and gets the returned,
positive id when it succeeds; and for every row with `id > 0`, a save cycle, and every number
of further save cycles, leaves the row and its id unchanged while it is in the map, and
persists it with `UpdateApply` on that id, never with `CreateApply`, whatever `UpdateApply`
returns and whatever the outcome of the race on `deleteRows`. -/
theorem C20_id_zero_until_created_then_fixed (md : MetadataHelpers) (dr : RegistryManager)
    (c : NewApplicationCall) (k : String) (r : RegistryRow) (st : SaveState)
    (survives : AppendSurvives)
    (hpos : ∀ row s, (dr.storage.CreateApply row s).2 = none
      → 0 < (dr.storage.CreateApply row s).1)
    (hwf : dr.registryData.wellFormed) (hget : dr.registryData.get k = some r) :
    ((NewApplication md dr c).2.id = 0
        ∧ (NewApplication md dr c).1.registryData.get (generateID c.appName c.ns)
          = some (NewApplication md dr c).2)
      ∧ (r.id = 0 →
          (saveRow dr.storage survives k r st).2.storageCalls
              = st.storageCalls ++ [.CreateApply r r.status]
            ∧ ((dr.storage.CreateApply r r.status).2 ≠ none →
                (saveRow dr.storage survives k r st).1.id = 0)
            ∧ ((dr.storage.CreateApply r r.status).2 = none →
                (saveRow dr.storage survives k r st).1.id = (dr.storage.CreateApply r r.status).1
                  ∧ 0 < (saveRow dr.storage survives k r st).1.id
                  ∧ (r.finish = false → (save dr survives).registryData.get k
                      = some { r with id := (dr.storage.CreateApply r r.status).1 })))
      ∧ (0 < r.id →
          (saveRow dr.storage survives k r st).1 = r
            ∧ (saveRow dr.storage survives k r st).2.storageCalls
              = st.storageCalls ++ [.UpdateApply r.id r r.status]
            ∧ (r.finish = false → (save dr survives).registryData.get k = some r)
            ∧ (∀ (scheds : List AppendSurvives) r2,
                (scheds.foldl save dr).registryData.get k = some r2 → r2 = r)
            ∧ (save dr survives).storageCalls
              = dr.storageCalls ++ dr.registryData.map (fun e =>
                  if e.2.id = 0 then StorageCall.CreateApply e.2 e.2.status
                  else StorageCall.UpdateApply e.2.id e.2 e.2.status)
            ∧ StorageCall.UpdateApply r.id r r.status
              ∈ dr.registryData.map (fun e =>
                  if e.2.id = 0 then StorageCall.CreateApply e.2 e.2.status
                  else StorageCall.UpdateApply e.2.id e.2 e.2.status)
            ∧ ∀ s, StorageCall.CreateApply r s
              ∉ dr.registryData.map (fun e =>
                  if e.2.id = 0 then StorageCall.CreateApply e.2 e.2.status
                  else StorageCall.UpdateApply e.2.id e.2 e.2.status)) := by
  have hsave : (save dr survives).registryData.get k
      = if deletesKey dr.storage survives k r then none else some (savedRow dr.storage r) := by
    rw [save_get dr survives k hwf, hget]
  refine ⟨⟨?_, ?_⟩, ?_, ?_⟩
  · unfold NewApplication
    cases c.status <;> rfl
  · unfold NewApplication
    cases c.status <;> exact GoMap.get_set_self _ _ _
  · intro hid
    rw [saveRow_eq]
    refine ⟨by simp [storageCallOf, hid], ?_, ?_⟩
    · intro herr
      simp [savedRow, hid, herr]
    · intro hok
      have hsr : savedRow dr.storage r = { r with id := (dr.storage.CreateApply r r.status).1 } := by
        simp [savedRow, hid, hok]
      refine ⟨by rw [hsr], by rw [hsr]; exact hpos _ _ hok, ?_⟩
      intro hfin
      have hq : ¬ deletesKey dr.storage survives k r := by
        rintro ⟨⟨_, h⟩ | h, _⟩
        · exact h hok
        · rw [hfin] at h
          exact Bool.false_ne_true h
      rw [hsave, hsr, if_neg hq]
  · intro hid
    have hne : ¬ r.id = 0 := by omega
    rw [saveRow_eq]
    refine ⟨savedRow_of_pos _ _ hid, by simp [storageCallOf, hne], ?_,
      fun scheds r2 h2 => foldl_save_get_of_pos scheds dr k r r2 hwf hget hid h2, ?_, ?_, ?_⟩
    · intro hfin
      have hq : ¬ deletesKey dr.storage survives k r := by
        rintro ⟨⟨h, _⟩ | h, _⟩
        · exact hne h
        · rw [hfin] at h
          exact Bool.false_ne_true h
      rw [hsave, savedRow_of_pos _ _ hid, if_neg hq]
    · unfold save
      rw [saveLoop_eq]
      rfl
    · rw [List.mem_map]
      exact ⟨(k, r), GoMap.mem_of_get _ _ _ hget, by simp [hne]⟩
    · intro s hmem
      rw [List.mem_map] at hmem
      obtain ⟨e, _, he⟩ := hmem
      by_cases h0 : e.2.id = 0
      · simp only [h0, if_true, StorageCall.CreateApply.injEq] at he
        rw [he.1] at h0
        exact hne h0
      · simp [h0] at he

/-- C20 (witness): `pickyStorage` returns the id 7 when it succeeds; the stored row of
scenario 1 keeps its id 7 over three save cycles although every `UpdateApply` fails, and the
cycle calls `UpdateApply` on it. -/
theorem C20_id_zero_until_created_then_fixed_witness :
    (∀ row s, (storedManager.storage.CreateApply row s).2 = none
        → 0 < (storedManager.storage.CreateApply row s).1)
      ∧ ([allSurvive, allSurvive, allSurvive].foldl save storedManager).registryData.get
          "k-web" = some happyRowStored
      ∧ (save storedManager allSurvive).storageCalls
        = [StorageCall.UpdateApply 7 happyRowStored DeploymentStatusRunning] :=
  ⟨fun row s h => by
      simp only [storedManager, mkManager, pickyStorage] at h ⊢
      split at h
      · simp at h
      · split
        · simp_all
        · decide,
    by decide,
    (C20_id_zero_until_created_then_fixed noMetadata storedManager callWebApiProd "k-web"
      happyRowStored ⟨[], [], ⟨[], [], []⟩⟩ allSurvive
      (fun row s h => by
        simp only [storedManager, mkManager, pickyStorage] at h ⊢
        split at h
        · simp at h
        · split
          · simp_all
          · decide)
      (by decide) (by decide)).2.2 (by decide) |>.2.2.2.2.1⟩

/-! ## C23: totals compensate -/

/-- C23: the deployment completion predicate looks only at totals across deployments, so
shortfalls and surpluses compensate.  `surplusRow` and `twoActiveRow` are not Deleted, within
every deadline and track two deployments, none of which has ready replicas equal to its own
`desired_state` (in the first, one deployment is under-ready and the other over-ready; in the
second, one owns no replica-set and the other two active ones), and on both
`isDeploymentFinish` returns `(true, nil)`. -/
theorem C23_totals_compensate :
    (surplusRow.status ≠ DeploymentStatusDeleted
        ∧ ¬ deploymentDeadlinePassed surplusRow 10
        ∧ surplusRow.DBSchema.Resources.Deployments.length = 2
        ∧ (∀ d ∈ surplusRow.DBSchema.Resources.Deployments,
            readyOf d.2.Replicaset ≠ d.2.Deployment.DesiredState)
        ∧ isDeploymentFinish surplusRow 10 = (true, none))
      ∧ (twoActiveRow.status ≠ DeploymentStatusDeleted
        ∧ ¬ deploymentDeadlinePassed twoActiveRow 10
        ∧ twoActiveRow.DBSchema.Resources.Deployments.length = 2
        ∧ (∀ d ∈ twoActiveRow.DBSchema.Resources.Deployments,
            readyOf d.2.Replicaset ≠ d.2.Deployment.DesiredState)
        ∧ twoActiveRow.DBSchema.Resources.Deployments.map
            (fun d => runningReplicasetsOf d.2.Replicaset) = [0, 2]
        ∧ isDeploymentFinish twoActiveRow 10 = (true, none)) := by
  decide

/-! ## C21: round trip through the storage -/

/-- C21 (the code at the failing input): on a manager with a collect window of 5 s,
`NewApplication(web, default, Running)` returns a row with that collect window; one save
cycle persists it with `CreateApply`, which succeeds with id 7; `LoadRunningApplies` on a
restarted manager registers under `generateID(web, default)` a row with the same snapshot,
status Running, `finish = false` and id 7, but with a collect window of 0. -/
theorem C21_load_loses_collect_window :
    webCreated.status = DeploymentStatusRunning
      ∧ webCreated.collectDataAfterDeploymentFinish = 5000000000
      ∧ webSaved.storageCalls = [StorageCall.CreateApply webCreated DeploymentStatusRunning]
      ∧ webSaved.storage.CreateApply webCreated DeploymentStatusRunning = (7, none)
      ∧ GetAppliesByStatus webSaved.storage webSaved.storageCalls DeploymentStatusRunning
        = [(7, webCreated.DBSchema)]
      ∧ Get webLoaded "web" "default"
        = some { id := 7, finish := false, status := DeploymentStatusRunning, cancelled := false,
                 collectDataAfterDeploymentFinish := 0, DBSchema := webCreated.DBSchema }
      ∧ (Get webLoaded "web" "default").map (fun r => r.collectDataAfterDeploymentFinish)
        ≠ some webCreated.collectDataAfterDeploymentFinish := by
  decide

/-! ## C22: freshness of events -/

theorem durationSeconds_eq (d : Int) : durationSeconds d = (d : ℚ) / 1000000000 := by
  unfold durationSeconds
  have h := Int.tdiv_add_tmod d 1000000000
  have h2 : (d : ℚ)
      = (1000000000 : ℚ) * (Int.tdiv d 1000000000 : ℚ) + (Int.tmod d 1000000000 : ℚ) := by
    exact_mod_cast h.symm
  rw [h2]
  field_simp
  ring

theorem durationSeconds_lt (d : Int) : durationSeconds d < 30 ↔ d < 30000000000 := by
  rw [durationSeconds_eq, div_lt_iff₀ (by norm_num)]
  constructor
  · intro h
    have h3 : (d : ℚ) < ((30000000000 : Int) : ℚ) := by push_cast; linarith
    exact_mod_cast h3
  · intro h
    have h3 : (d : ℚ) < ((30000000000 : Int) : ℚ) := by exact_mod_cast h
    push_cast at h3; linarith

theorem timeSub_lt (now created : Int) :
    timeSub now created < 30000000000 ↔ now - created < 30000000000 := by
  unfold timeSub maxDuration minDuration
  split
  · constructor <;> intro h <;> omega
  · split
    · constructor <;> intro h <;> omega
    · rfl

/-- Whether `Watch` lets the event through, as the test of the source and as a difference of
instants. -/
theorem fresh_iff (now created : Int) :
    durationSeconds (timeSub now created) < 30 ↔ now - created < 30000000000 := by
  rw [durationSeconds_lt, timeSub_lt]

theorem watchLoop_event (eventData : K8sEvent) (now : Int) (rest : List Received) :
    watchLoop (⟨.Event eventData, now⟩ :: rest)
      = if now - eventData.CreationTimestamp < 30000000000 then
          eventMessagesOf eventData :: watchLoop rest
        else watchLoop rest := by
  simp only [watchLoop]
  by_cases h : now - eventData.CreationTimestamp < 30000000000
  · rw [if_pos h, if_pos ((fresh_iff _ _).2 h)]
  · rw [if_neg h, if_neg (fun h2 => h ((fresh_iff _ _).1 h2))]

/-- C22: the event stream emits a well-formed orchestrator event if and only if
`now - event.creation_time < 30 s` (an event exactly 30 s old or older is dropped), and the
emitted record is `{Message, Time = creation time in nanoseconds, Action,
ReportingController}` of the event; a malformed payload is skipped and the stream goes on; so
every record emitted comes from an event that was less than 30 s old when handled. -/
theorem C22_watch_emits_fresh_events (received : List Received) (eventData : K8sEvent)
    (now : Int) (rest : List Received) :
    (watchLoop (⟨.Event eventData, now⟩ :: rest)
        = if now - eventData.CreationTimestamp < 30 * 1000000000 then
            { Message := eventData.Message, Time := eventData.CreationTimestamp,
              Action := eventData.Action,
              ReportingController := eventData.ReportingController } :: watchLoop rest
          else watchLoop rest)
      ∧ watchLoop (⟨.Other, now⟩ :: rest) = watchLoop rest
      ∧ (∀ m ∈ watchLoop received, ∃ r ∈ received, ∃ e,
          r.object = .Event e ∧ r.now - e.CreationTimestamp < 30 * 1000000000
            ∧ m = { Message := e.Message, Time := e.CreationTimestamp, Action := e.Action,
                    ReportingController := e.ReportingController }) := by
  refine ⟨watchLoop_event eventData now rest, rfl, ?_⟩
  induction received with
  | nil => simp [watchLoop]
  | cons r rs ih =>
    obtain ⟨object, rnow⟩ := r
    cases object with
    | Other =>
      intro m hm
      obtain ⟨r2, hr2, e, h1, h2, h3⟩ := ih m hm
      exact ⟨r2, List.mem_cons_of_mem _ hr2, e, h1, h2, h3⟩
    | Event e =>
      intro m hm
      rw [watchLoop_event] at hm
      by_cases h : rnow - e.CreationTimestamp < 30000000000
      · rw [if_pos h] at hm
        rcases List.mem_cons.1 hm with hm1 | hm1
        · exact ⟨⟨.Event e, rnow⟩, List.mem_cons_self _ _, e, rfl, h, hm1⟩
        · obtain ⟨r2, hr2, e2, h1, h2, h3⟩ := ih m hm1
          exact ⟨r2, List.mem_cons_of_mem _ hr2, e2, h1, h2, h3⟩
      · rw [if_neg h] at hm
        obtain ⟨r2, hr2, e2, h1, h2, h3⟩ := ih m hm
        exact ⟨r2, List.mem_cons_of_mem _ hr2, e2, h1, h2, h3⟩

/-- C22 (witness): the event created at second 100 is emitted when handled one nanosecond
before second 130, and dropped when handled at second 130 (exactly 30 s old) or at second 160
(scenario 4). -/
theorem C22_watch_emits_fresh_events_witness :
    watchLoop [⟨.Event eventAt100, 129999999999⟩]
        = [{ Message := "Scaled up", Time := 100000000000, Action := "",
             ReportingController := "deployment-controller" }]
      ∧ watchLoop [⟨.Event eventAt100, 130000000000⟩] = []
      ∧ watchLoop [⟨.Event eventAt100, 160000000000⟩] = [] :=
  ⟨(C22_watch_emits_fresh_events [] eventAt100 129999999999 []).1.trans (by decide),
    (C22_watch_emits_fresh_events [] eventAt100 130000000000 []).1.trans (by decide),
    (C22_watch_emits_fresh_events [] eventAt100 160000000000 []).1.trans (by decide)⟩

end Statusbay
